import Mathlib

/-!
# Round-robin load balancer: embedding and verified properties

A shallow embedding of `pkg/provider/provider.go` and
`pkg/loadbalancer/loadbalancer.go`.

* Providers are pointers in the source (`&TestProvider`), shared between the
  caller and the balancer.  A provider is therefore a reference
  (`ProviderRef`) into a store (`ProviderStore`) that holds the current state
  of every provider; the balancer operations only read the store.
* `uint32` fields are natural numbers; every arithmetic operation of the
  source on them is reduced modulo `2^32` (`u32`), the decrement through
  `decU32`.  Lengths are Go `int`s (64 bits) and are not reduced.
* Every operation takes the balancer state and returns the new state next to
  its Go return values.
* Indexing a slice out of range is a run-time fault in Go; it is the outcome
  `Outcome.indexOutOfRange`.
* The calls on `tlb.mtx` do not change the data.  Where the lock discipline is
  the subject, the methods are given a second time with the trace of their lock
  calls and writes in program order (`performHealthCheckTraced`, ...), and
  shown to compute the same results.
-/

namespace LB

/-! ## `pkg/provider/provider.go` -/

/-- The error values of package `provider`. -/
inductive ProviderError where
  | ErrNotEnabled
  deriving DecidableEq, Repr

/-- Text of `ProviderError.Error()`. -/
def ProviderError.msg : ProviderError → String
  | .ErrNotEnabled => "provider not enabled"

/-- State of a `TestProvider` (the mutex is not part of the data). -/
structure TestProvider where
  Id : String
  enabled : Bool
  deriving DecidableEq, Repr

/-- Constructor `NewTestProvider(id)`: enabled from the start. -/
def NewTestProvider (id : String) : TestProvider :=
  { Id := id, enabled := true }

/-- Method `TestProvider.Get`: the pair `(string, error)` of the source; a
disabled provider yields the empty string together with `ErrNotEnabled`. -/
def TestProvider.Get (t : TestProvider) : String × Option ProviderError :=
  if !t.enabled then ("", some ProviderError.ErrNotEnabled) else (t.Id, none)

/-- Method `TestProvider.Enable`. -/
def TestProvider.Enable (t : TestProvider) : TestProvider :=
  { t with enabled := true }

/-- Method `TestProvider.Disable`. -/
def TestProvider.Disable (t : TestProvider) : TestProvider :=
  { t with enabled := false }

/-- Method `TestProvider.Check`: the health probe. -/
def TestProvider.Check (t : TestProvider) : Bool :=
  t.enabled

/-- A provider held by the balancer is a pointer. -/
abbrev ProviderRef := Nat

/-- The providers a pointer can designate, with their current state. -/
abbrev ProviderStore := ProviderRef → TestProvider

/-! ## `pkg/loadbalancer/loadbalancer.go` -/

/-- Modulus of `uint32` arithmetic. -/
def u32 : Nat := 4294967296

/-- Type `ProviderWrapper`. -/
structure ProviderWrapper where
  Healthy : Bool
  HealthCheckPassed : Nat
  Provider : ProviderRef
  deriving DecidableEq, Repr

/-- Type `TestLoadBalancer`, without the context, the interval and the mutex. -/
structure TestLoadBalancer where
  maxProvidersAllowed : Nat
  currentProvider : Nat
  fullness : Nat
  providers : List ProviderWrapper
  HealthCheckPassesThreshold : Nat
  deriving DecidableEq, Repr

/-- The errors built with `fmt.Errorf` in the balancer. -/
inductive LBError where
  | noProvidersAdded
  | noHealthyProviders
  | limitReached (allowed : Nat)
  | notFound (providerID : String)
  deriving DecidableEq, Repr

/-- Text of each balancer error, as formatted in the source. -/
def LBError.msg : LBError → String
  | .noProvidersAdded => "no providers added\r\n"
  | .noHealthyProviders => "no healthy providers\r\n"
  | .limitReached allowed =>
      "LB Registration: providers limit reached. Allowed: " ++ toString allowed
  | .notFound providerID =>
      "LB Unregistration: provider with ID '" ++ providerID ++ "' not found\r\n"

/-- Result of `nextProvider`: a provider, an error, or the run-time fault of
an out-of-range slice index. -/
inductive Outcome where
  | ok (p : ProviderRef)
  | err (e : LBError)
  | indexOutOfRange
  deriving DecidableEq, Repr

/-- Constructor `NewTestLoadBalancer`: empty slice, cursor 0, `fullness` at its
zero value. -/
def NewTestLoadBalancer (MaxProvidersAllowed healthCheckSuccessThreshold : Nat) :
    TestLoadBalancer :=
  { maxProvidersAllowed := MaxProvidersAllowed
    currentProvider := 0
    fullness := 0
    providers := []
    HealthCheckPassesThreshold := healthCheckSuccessThreshold }

/-- Body of the loop of `performHealthCheck` for one entry `p`. -/
def healthCheckEntry (h : ProviderStore) (threshold : Nat) (p : ProviderWrapper) :
    ProviderWrapper :=
  if !(h p.Provider).Check then
    { p with HealthCheckPassed := 0, Healthy := false }
  else
    let p1 := { p with HealthCheckPassed := (p.HealthCheckPassed + 1) % u32 }
    if p1.HealthCheckPassed ≥ threshold then { p1 with Healthy := true } else p1

/-- The loop `for i := 0; i < len(tlb.providers); i++` of `performHealthCheck`:
`fuel` is the number of iterations left, `i` the loop index. -/
def healthCheckLoop (h : ProviderStore) (threshold : Nat) :
    Nat → Nat → List ProviderWrapper → List ProviderWrapper
  | 0, _, ps => ps
  | fuel + 1, i, ps =>
    match ps[i]? with
    | none => ps
    | some p => healthCheckLoop h threshold fuel (i + 1) (ps.set i (healthCheckEntry h threshold p))

/-- Method `performHealthCheck`: one sweep over all entries. -/
def performHealthCheck (h : ProviderStore) (tlb : TestLoadBalancer) : TestLoadBalancer :=
  { tlb with
    providers :=
      healthCheckLoop h tlb.HealthCheckPassesThreshold tlb.providers.length 0 tlb.providers }

/-- The loop `for count < len(tlb.providers)` of `nextProvider`: `fuel` is
`len(tlb.providers) - count`.  Returns the result, the state and the final
`count`. -/
def nextProviderLoop : Nat → Nat → TestLoadBalancer → Outcome × TestLoadBalancer × Nat
  | 0, count, tlb => (Outcome.err LBError.noHealthyProviders, tlb, count)
  | fuel + 1, count, tlb =>
    let t1 : TestLoadBalancer :=
      if tlb.currentProvider ≥ tlb.fullness then { tlb with currentProvider := 0 } else tlb
    match t1.providers[t1.currentProvider]? with
    | none => (Outcome.indexOutOfRange, t1, count)
    | some prv =>
      if prv.Healthy then
        (Outcome.ok prv.Provider,
          { t1 with currentProvider := (t1.currentProvider + 1) % u32 }, count)
      else
        nextProviderLoop fuel (count + 1)
          { t1 with currentProvider := (t1.currentProvider + 1) % u32 }

/-- Method `nextProvider`, with the final value of `count` as third component. -/
def nextProviderCount (tlb : TestLoadBalancer) : Outcome × TestLoadBalancer × Nat :=
  if tlb.fullness = 0 then
    (Outcome.err LBError.noProvidersAdded, tlb, 0)
  else
    nextProviderLoop tlb.providers.length 0 tlb

/-- Method `nextProvider`. -/
def nextProvider (tlb : TestLoadBalancer) : Outcome × TestLoadBalancer :=
  ((nextProviderCount tlb).1, (nextProviderCount tlb).2.1)

/-- Method `Get`: `none` stands for the run-time fault of `nextProvider`. -/
def Get (h : ProviderStore) (tlb : TestLoadBalancer) : Option String × TestLoadBalancer :=
  match nextProvider tlb with
  | (Outcome.err e, t) => (some ("LoadBanalcer error: " ++ e.msg ++ "\r\n"), t)
  | (Outcome.indexOutOfRange, t) => (none, t)
  | (Outcome.ok p, t) =>
    match (h p).Get with
    | (_, some e) => (some ("Provider error: " ++ e.msg ++ "\r\n"), t)
    | (result, none) => (some result, t)

/-- Method `Register`: the returned error (`none` is `nil`) and the new state.
The capacity test converts the sum of the two lengths to `uint32`; the error
text reports `len(tlb.providers)`. -/
def Register (tlb : TestLoadBalancer) (providers : List ProviderRef) :
    Option LBError × TestLoadBalancer :=
  if (tlb.providers.length + providers.length) % u32 > tlb.maxProvidersAllowed then
    (some (LBError.limitReached tlb.providers.length), tlb)
  else
    let pw : List ProviderWrapper :=
      providers.map fun p => { Provider := p, Healthy := true, HealthCheckPassed := 0 }
    (none,
      { tlb with
        providers := tlb.providers ++ pw
        fullness := (tlb.fullness + providers.length % u32) % u32 })

/-- The `uint32` statement `x -= 1`: it wraps from 0 to `2^32 - 1`; for
`x < 2^32` this is `(x + 2^32 - 1) % 2^32`. -/
def decU32 (x : Nat) : Nat :=
  if x = 0 then u32 - 1 else x - 1

/-- The loop of `Unregister`: `fuel` is the number of iterations left, `i` the
loop index.  The branch `if err != nil` of the source only builds an error
value and drops it, so the identity compared is the first result of
`Provider.Get()` whether or not the fetch failed. -/
def unregisterLoop (h : ProviderStore) (providerID : String) (tlb : TestLoadBalancer) :
    Nat → Nat → Option LBError × TestLoadBalancer
  | 0, _ => (some (LBError.notFound providerID), tlb)
  | fuel + 1, i =>
    match tlb.providers[i]? with
    | none => (some (LBError.notFound providerID), tlb)
    | some w =>
      let id := (h w.Provider).Get.1
      if id = providerID then
        (none,
          { tlb with
            providers := tlb.providers.take i ++ tlb.providers.drop (i + 1)
            fullness := decU32 tlb.fullness })
      else
        unregisterLoop h providerID tlb fuel (i + 1)

/-- Method `Unregister`: the returned error (`none` is `nil`) and the new state. -/
def Unregister (h : ProviderStore) (tlb : TestLoadBalancer) (providerID : String) :
    Option LBError × TestLoadBalancer :=
  unregisterLoop h providerID tlb tlb.providers.length 0

/-! ## Auxiliary definitions for the statements -/

/-- The state `tlb` with its cursor set to `c`. -/
def withCursor (tlb : TestLoadBalancer) (c : Nat) : TestLoadBalancer :=
  { tlb with currentProvider := c }

/-- Index of the first entry read by `nextProvider`: the cursor, or 0 when the
cursor is not below `fullness`. -/
def scanStart (tlb : TestLoadBalancer) : Nat :=
  if tlb.currentProvider ≥ tlb.fullness then 0 else tlb.currentProvider

/-- Whether the entry at index `i` exists and is healthy. -/
def healthyAt (ps : List ProviderWrapper) (i : Nat) : Bool :=
  match ps[i]? with
  | some w => w.Healthy
  | none => false

/-- Reachable-state shape: the size counter equals the slice length, which fits
in 32 bits. -/
def WellFormed (tlb : TestLoadBalancer) : Prop :=
  tlb.fullness = tlb.providers.length ∧ tlb.providers.length < u32

/-- The wrapper `Register` builds for provider `p`. -/
def newEntry (p : ProviderRef) : ProviderWrapper :=
  { Provider := p, Healthy := true, HealthCheckPassed := 0 }

/-- Calls of `Register` in sequence, one per batch of providers; errors are
dropped, as the demo does after its first loop. -/
def registerAll (tlb : TestLoadBalancer) : List (List ProviderRef) → TestLoadBalancer
  | [] => tlb
  | b :: bs => registerAll (Register tlb b).2 bs

/-- `k` consecutive calls of `Get` with the providers in state `h`: the
returned strings in call order, and the final state. -/
def getMany (h : ProviderStore) : Nat → TestLoadBalancer → List (Option String) × TestLoadBalancer
  | 0, tlb => ([], tlb)
  | k + 1, tlb => ((Get h tlb).1 :: (getMany h k (Get h tlb).2).1, (getMany h k (Get h tlb).2).2)

/-- Consecutive health sweeps, one per element of `hs`: the state of the
providers at the time of each sweep. -/
def sweeps (hs : List ProviderStore) (tlb : TestLoadBalancer) : TestLoadBalancer :=
  hs.foldl (fun t h => performHealthCheck h t) tlb

/-- The state in the middle of a sweep of `tlb`: the loop of
`performHealthCheck` has run for its first `k` entries. -/
def sweepAfter (h : ProviderStore) (k : Nat) (tlb : TestLoadBalancer) : TestLoadBalancer :=
  { tlb with providers := healthCheckLoop h tlb.HealthCheckPassesThreshold k 0 tlb.providers }

/-- The identity `Unregister` obtains for entry `w`: the first component of
the provider's `Get`, whatever its error. -/
def fetchedId (h : ProviderStore) (w : ProviderWrapper) : String :=
  (h w.Provider).Get.1

/-- The state after `Unregister` removed the entry at index `i`. -/
def removeAt (tlb : TestLoadBalancer) (i : Nat) : TestLoadBalancer :=
  { tlb with
    providers := tlb.providers.take i ++ tlb.providers.drop (i + 1)
    fullness := decU32 tlb.fullness }

/-- The scan of `nextProvider` seen from a start index `s`: it passes over the
unhealthy entries at `s, s+1, ...` (cyclically), counting them, selects the
first healthy one, and leaves the cursor one past the selected index. -/
def SelectsFirstHealthyFrom (s : Nat) (tlb : TestLoadBalancer) : Prop :=
  ∃ k w, k < tlb.providers.length ∧
    (∀ j, j < k → healthyAt tlb.providers ((s + j) % tlb.providers.length) = false) ∧
    tlb.providers[(s + k) % tlb.providers.length]? = some w ∧ w.Healthy = true ∧
    nextProviderCount tlb =
      (Outcome.ok w.Provider, withCursor tlb ((s + k) % tlb.providers.length + 1), k)

/-- One call on the balancer: a method of the `LoadBalancer` interface, or one
health sweep of the background routine. -/
inductive Op where
  | register (providers : List ProviderRef)
  | unregister (providerID : String)
  | get
  | sweep

/-- State after operation `op`, with the providers in state `h` during it. -/
def step (h : ProviderStore) (tlb : TestLoadBalancer) : Op → TestLoadBalancer
  | Op.register providers => (Register tlb providers).2
  | Op.unregister providerID => (Unregister h tlb providerID).2
  | Op.get => (Get h tlb).2
  | Op.sweep => performHealthCheck h tlb

/-- States reachable from `NewTestLoadBalancer(cap, T)` by any sequence of
operations, the providers being in any state at each of them. -/
inductive Reachable (cap T : Nat) : TestLoadBalancer → Prop where
  | init : Reachable cap T (NewTestLoadBalancer cap T)
  | step (h : ProviderStore) (op : Op) {tlb : TestLoadBalancer} :
      Reachable cap T tlb → Reachable cap T (step h tlb op)

/-- States reachable by operations whose `Register` calls keep the number of
entries plus the number of arguments below 2^32. -/
inductive ReachableFit (cap T : Nat) : TestLoadBalancer → Prop where
  | init : ReachableFit cap T (NewTestLoadBalancer cap T)
  | step (h : ProviderStore) (op : Op) {tlb : TestLoadBalancer} :
      ReachableFit cap T tlb →
      (∀ providers, op = Op.register providers →
        tlb.providers.length + providers.length < u32) →
      ReachableFit cap T (step h tlb op)

/-! ## The methods with a log of provider calls, lock calls and writes -/

/-- Method `Get` with a log: the third component lists, in call order, the
providers whose `Get` method was called. -/
def GetLogged (h : ProviderStore) (tlb : TestLoadBalancer) :
    Option String × TestLoadBalancer × List ProviderRef :=
  match nextProvider tlb with
  | (Outcome.err e, t) => (some ("LoadBanalcer error: " ++ e.msg ++ "\r\n"), t, [])
  | (Outcome.indexOutOfRange, t) => (none, t, [])
  | (Outcome.ok p, t) =>
    match (h p).Get with
    | (_, some e) => (some ("Provider error: " ++ e.msg ++ "\r\n"), t, [p])
    | (result, none) => (some result, t, [p])

/-- The lock calls on `tlb.mtx` and the writes to the guarded data, as events
in program order. -/
inductive LockEvent where
  | lock
  | unlock
  | rlock
  | runlock
  | writeCursor
  | writeProviders
  | writeFullness
  | writeCounter (i : Nat)
  | writeHealthy (i : Nat)
  deriving DecidableEq, Repr

/-- How the running method holds `tlb.mtx`. -/
inductive LockMode where
  | free
  | shared
  | exclusive
  deriving DecidableEq, Repr

/-- Whether the event is a write to the entry sequence, the cursor, the size
counter or a health field. -/
def LockEvent.isWrite : LockEvent → Bool
  | LockEvent.lock => false
  | LockEvent.unlock => false
  | LockEvent.rlock => false
  | LockEvent.runlock => false
  | _ => true

/-- The lock mode after an event. -/
def LockMode.after (m : LockMode) : LockEvent → LockMode
  | LockEvent.lock => LockMode.exclusive
  | LockEvent.unlock => LockMode.free
  | LockEvent.rlock => LockMode.shared
  | LockEvent.runlock => LockMode.free
  | _ => m

/-- Every write of the trace happens while the writer lock is held, starting
in mode `m`. -/
def writesUnderExclusiveLock : LockMode → List LockEvent → Bool
  | _, [] => true
  | m, e :: es =>
    (!e.isWrite || decide (m = LockMode.exclusive)) && writesUnderExclusiveLock (m.after e) es

/-- Body of the loop of `performHealthCheck` for entry `p` at index `i`, with
the writes it performs. -/
def healthCheckEntryTraced (h : ProviderStore) (threshold i : Nat) (p : ProviderWrapper) :
    ProviderWrapper × List LockEvent :=
  if !(h p.Provider).Check then
    ({ p with HealthCheckPassed := 0, Healthy := false },
      [LockEvent.writeCounter i, LockEvent.writeHealthy i])
  else
    let p1 := { p with HealthCheckPassed := (p.HealthCheckPassed + 1) % u32 }
    if p1.HealthCheckPassed ≥ threshold then
      ({ p1 with Healthy := true }, [LockEvent.writeCounter i, LockEvent.writeHealthy i])
    else (p1, [LockEvent.writeCounter i])

/-- The loop of `performHealthCheck` with its trace. -/
def healthCheckLoopTraced (h : ProviderStore) (threshold : Nat) :
    Nat → Nat → List ProviderWrapper → List ProviderWrapper × List LockEvent
  | 0, _, ps => (ps, [])
  | fuel + 1, i, ps =>
    match ps[i]? with
    | none => (ps, [])
    | some p =>
      ((healthCheckLoopTraced h threshold fuel (i + 1)
          (ps.set i (healthCheckEntryTraced h threshold i p).1)).1,
        (healthCheckEntryTraced h threshold i p).2 ++
          (healthCheckLoopTraced h threshold fuel (i + 1)
            (ps.set i (healthCheckEntryTraced h threshold i p).1)).2)

/-- Method `performHealthCheck` with its trace: `tlb.mtx.Lock()` is followed at
once by `tlb.mtx.Unlock()`, then the loop runs. -/
def performHealthCheckTraced (h : ProviderStore) (tlb : TestLoadBalancer) :
    TestLoadBalancer × List LockEvent :=
  ({ tlb with
      providers :=
        (healthCheckLoopTraced h tlb.HealthCheckPassesThreshold tlb.providers.length 0
          tlb.providers).1 },
    [LockEvent.lock, LockEvent.unlock] ++
      (healthCheckLoopTraced h tlb.HealthCheckPassesThreshold tlb.providers.length 0
        tlb.providers).2)

/-- The loop of `nextProvider` with its trace: the wrap-correction and the
increment are writes to the cursor. -/
def nextProviderLoopTraced :
    Nat → Nat → TestLoadBalancer → (Outcome × TestLoadBalancer × Nat) × List LockEvent
  | 0, count, tlb => ((Outcome.err LBError.noHealthyProviders, tlb, count), [])
  | fuel + 1, count, tlb =>
    let t1 : TestLoadBalancer :=
      if tlb.currentProvider ≥ tlb.fullness then { tlb with currentProvider := 0 } else tlb
    let ev1 : List LockEvent :=
      if tlb.currentProvider ≥ tlb.fullness then [LockEvent.writeCursor] else []
    match t1.providers[t1.currentProvider]? with
    | none => ((Outcome.indexOutOfRange, t1, count), ev1)
    | some prv =>
      if prv.Healthy then
        ((Outcome.ok prv.Provider,
          { t1 with currentProvider := (t1.currentProvider + 1) % u32 }, count),
          ev1 ++ [LockEvent.writeCursor])
      else
        ((nextProviderLoopTraced fuel (count + 1)
            { t1 with currentProvider := (t1.currentProvider + 1) % u32 }).1,
          ev1 ++ [LockEvent.writeCursor] ++
            (nextProviderLoopTraced fuel (count + 1)
              { t1 with currentProvider := (t1.currentProvider + 1) % u32 }).2)

/-- Method `nextProvider` with its trace: `RLock` on entry, the deferred
`RUnlock` on return. -/
def nextProviderTraced (tlb : TestLoadBalancer) :
    (Outcome × TestLoadBalancer) × List LockEvent :=
  if tlb.fullness = 0 then
    ((Outcome.err LBError.noProvidersAdded, tlb), [LockEvent.rlock, LockEvent.runlock])
  else
    (((nextProviderLoopTraced tlb.providers.length 0 tlb).1.1,
        (nextProviderLoopTraced tlb.providers.length 0 tlb).1.2.1),
      [LockEvent.rlock] ++ (nextProviderLoopTraced tlb.providers.length 0 tlb).2 ++
        [LockEvent.runlock])

/-- Method `Register` with its trace: `Lock` on entry, the deferred `Unlock`
on return. -/
def RegisterTraced (tlb : TestLoadBalancer) (providers : List ProviderRef) :
    (Option LBError × TestLoadBalancer) × List LockEvent :=
  if (tlb.providers.length + providers.length) % u32 > tlb.maxProvidersAllowed then
    ((some (LBError.limitReached tlb.providers.length), tlb),
      [LockEvent.lock, LockEvent.unlock])
  else
    let pw : List ProviderWrapper :=
      providers.map fun p => { Provider := p, Healthy := true, HealthCheckPassed := 0 }
    ((none,
      { tlb with
        providers := tlb.providers ++ pw
        fullness := (tlb.fullness + providers.length % u32) % u32 }),
      [LockEvent.lock, LockEvent.writeProviders, LockEvent.writeFullness, LockEvent.unlock])

/-- The loop of `Unregister` with the writes it performs. -/
def unregisterLoopTraced (h : ProviderStore) (providerID : String) (tlb : TestLoadBalancer) :
    Nat → Nat → (Option LBError × TestLoadBalancer) × List LockEvent
  | 0, _ => ((some (LBError.notFound providerID), tlb), [])
  | fuel + 1, i =>
    match tlb.providers[i]? with
    | none => ((some (LBError.notFound providerID), tlb), [])
    | some w =>
      let id := (h w.Provider).Get.1
      if id = providerID then
        ((none,
          { tlb with
            providers := tlb.providers.take i ++ tlb.providers.drop (i + 1)
            fullness := decU32 tlb.fullness }),
          [LockEvent.writeProviders, LockEvent.writeFullness])
      else
        unregisterLoopTraced h providerID tlb fuel (i + 1)

/-- Method `Unregister` with its trace: `Lock` on entry, the deferred `Unlock`
on return. -/
def UnregisterTraced (h : ProviderStore) (tlb : TestLoadBalancer) (providerID : String) :
    (Option LBError × TestLoadBalancer) × List LockEvent :=
  ((unregisterLoopTraced h providerID tlb tlb.providers.length 0).1,
    [LockEvent.lock] ++ (unregisterLoopTraced h providerID tlb tlb.providers.length 0).2 ++
      [LockEvent.unlock])

/-! ## The states of the demo (`cmd/balancer/main.go`) -/

/-- The providers of the demo: pointer `r` designates the enabled provider
with identity `p-r`. -/
def demoStore : ProviderStore := fun r => NewTestProvider ("p-" ++ toString r)

/-- The providers of the demo after `providers["p-5"].Disable()`. -/
def demoStoreFiveDown : ProviderStore :=
  fun r => if r = 5 then (demoStore r).Disable else demoStore r

/-- The demo after its ten registrations: capacity 10, ten entries. -/
def demoFull : TestLoadBalancer :=
  registerAll (NewTestLoadBalancer 10 2) [[0], [1], [2], [3], [4], [5], [6], [7], [8], [9]]

/-- The demo after five of its registrations: capacity 10, five entries. -/
def demoHalf : TestLoadBalancer :=
  registerAll (NewTestLoadBalancer 10 2) [[0], [1], [2], [3], [4]]

/-- The demo after its ten registrations and five `Get` calls: the entry of
`p-5` is due next. -/
def demoFiveNext : TestLoadBalancer :=
  (getMany demoStore 5 demoFull).2

/-- The demo after ten registrations and five `Get` calls, in which `p-2` is
then unregistered: the cursor is 5 and `p-5` was due next. -/
def demoShifted : TestLoadBalancer :=
  (Unregister demoStore demoFiveNext "p-2").2

/-- The demo after its ten registrations, its first ten `Get` calls and the
removal of `p-2` and `p-4`: eight entries, cursor 10. -/
def demoAfterRemoval : TestLoadBalancer :=
  (Unregister demoStore
    (Unregister demoStore (getMany demoStore 10 demoFull).2 "p-2").2 "p-4").2

/-- The demo after its second rotation (eight `Get` calls after the removal
of `p-2` and `p-4`): eight entries, cursor 8. -/
def demoAfterSecondRotation : TestLoadBalancer :=
  (getMany demoStore 8 demoAfterRemoval).2

/-- The demo after `p-2` and `p-4` were registered again, in two calls. -/
def demoReRegistered : TestLoadBalancer :=
  registerAll demoAfterSecondRotation [[2], [4]]

/-- The demo after its third rotation (ten `Get` calls) and the failed
`Unregister("p-20")`. -/
def demoAfterThirdRotation : TestLoadBalancer :=
  (Unregister demoStore (getMany demoStore 10 demoReRegistered).2 "p-20").2

/-- The demo after `p-5` was disabled and one health sweep ran. -/
def demoFiveDemoted : TestLoadBalancer :=
  performHealthCheck demoStoreFiveDown demoAfterThirdRotation

/-- Three providers registered, three `Get` calls (cursor 3), then `p-0`
unregistered: two entries remain and the cursor is 3. -/
def skewedState : TestLoadBalancer :=
  (Unregister demoStore
    (getMany demoStore 3 (registerAll (NewTestLoadBalancer 3 1) [[0], [1], [2]])).2 "p-0").2

/-- Two providers registered, one `Get` call (cursor 1), then both providers
disabled and one sweep: both entries are unhealthy. -/
def allDownState : TestLoadBalancer :=
  performHealthCheck (fun r => (demoStore r).Disable)
    (Get demoStore (registerAll (NewTestLoadBalancer 10 2) [[0], [1]])).2

/-- Two providers registered, then both disabled; no sweep has run yet. -/
def twoDisabledState : TestLoadBalancer :=
  registerAll (NewTestLoadBalancer 10 2) [[0], [1]]

/-! ## Lemmas and theorems -/

@[simp]
theorem withCursor_providers (tlb : TestLoadBalancer) (c : Nat) :
    (withCursor tlb c).providers = tlb.providers := rfl

@[simp]
theorem withCursor_fullness (tlb : TestLoadBalancer) (c : Nat) :
    (withCursor tlb c).fullness = tlb.fullness := rfl

@[simp]
theorem withCursor_currentProvider (tlb : TestLoadBalancer) (c : Nat) :
    (withCursor tlb c).currentProvider = c := rfl

@[simp]
theorem withCursor_withCursor (tlb : TestLoadBalancer) (c d : Nat) :
    withCursor (withCursor tlb c) d = withCursor tlb d := rfl

theorem withCursor_inj (tlb : TestLoadBalancer) (c d : Nat)
    (h : withCursor tlb c = withCursor tlb d) : c = d :=
  congrArg TestLoadBalancer.currentProvider h

theorem wrap_eq_withCursor (tlb : TestLoadBalancer) :
    (if tlb.currentProvider ≥ tlb.fullness then { tlb with currentProvider := 0 } else tlb)
      = withCursor tlb (scanStart tlb) := by
  unfold scanStart withCursor
  split <;> rfl

theorem nextProviderLoop_succ (fuel count : Nat) (tlb : TestLoadBalancer) :
    nextProviderLoop (fuel + 1) count tlb =
      match tlb.providers[scanStart tlb]? with
      | none => (Outcome.indexOutOfRange, withCursor tlb (scanStart tlb), count)
      | some prv =>
        if prv.Healthy then
          (Outcome.ok prv.Provider, withCursor tlb ((scanStart tlb + 1) % u32), count)
        else
          nextProviderLoop fuel (count + 1) (withCursor tlb ((scanStart tlb + 1) % u32)) := by
  rw [nextProviderLoop]
  simp only [wrap_eq_withCursor]
  rfl

theorem scanStart_lt (tlb : TestLoadBalancer) (hpos : 0 < tlb.fullness) :
    scanStart tlb < tlb.fullness := by
  unfold scanStart
  split <;> omega

theorem scanStart_next (tlb : TestLoadBalancer) (hwf : WellFormed tlb)
    (hpos : 0 < tlb.providers.length) :
    scanStart (withCursor tlb ((scanStart tlb + 1) % u32))
      = (scanStart tlb + 1) % tlb.providers.length := by
  obtain ⟨hf, hlt⟩ := hwf
  have hs := scanStart_lt tlb (by omega)
  have h1 : (scanStart tlb + 1) % u32 = scanStart tlb + 1 := Nat.mod_eq_of_lt (by omega)
  rw [h1]
  generalize scanStart tlb = s at hs
  unfold scanStart
  simp only [withCursor_currentProvider, withCursor_fullness, hf]
  rw [hf] at hs
  split
  · have : s + 1 = tlb.providers.length := by omega
    rw [this, Nat.mod_self]
  · rw [Nat.mod_eq_of_lt (by omega)]

theorem wellFormed_withCursor (tlb : TestLoadBalancer) (c : Nat) (hwf : WellFormed tlb) :
    WellFormed (withCursor tlb c) := hwf

theorem nextProviderLoop_found (k : Nat) :
    ∀ (fuel count : Nat) (tlb : TestLoadBalancer) (w : ProviderWrapper),
      WellFormed tlb → k < fuel →
      (∀ j, j < k → healthyAt tlb.providers ((scanStart tlb + j) % tlb.providers.length) = false) →
      tlb.providers[(scanStart tlb + k) % tlb.providers.length]? = some w →
      w.Healthy = true →
      nextProviderLoop fuel count tlb =
        (Outcome.ok w.Provider,
          withCursor tlb ((scanStart tlb + k) % tlb.providers.length + 1), count + k) := by
  induction k with
  | zero =>
    intro fuel count tlb w hwf hk _ hw hh
    obtain ⟨f, rfl⟩ : ∃ f, fuel = f + 1 := ⟨fuel - 1, by omega⟩
    have hpos : 0 < tlb.providers.length := by
      rcases Nat.eq_zero_or_pos tlb.providers.length with h0 | h0
      · rw [List.length_eq_zero] at h0
        rw [h0] at hw
        simp at hw
      · exact h0
    have hs : scanStart tlb < tlb.providers.length := by
      have := scanStart_lt tlb (by rw [hwf.1]; exact hpos)
      rw [hwf.1] at this
      exact this
    have hlt := hwf.2
    simp only [Nat.add_zero, Nat.mod_eq_of_lt hs] at hw ⊢
    rw [nextProviderLoop_succ, hw]
    simp only [hh, if_true, Nat.add_zero]
    rw [Nat.mod_eq_of_lt (by omega)]
  | succ k ih =>
    intro fuel count tlb w hwf hk hun hw hh
    obtain ⟨f, rfl⟩ : ∃ f, fuel = f + 1 := ⟨fuel - 1, by omega⟩
    have hpos : 0 < tlb.providers.length := by
      rcases Nat.eq_zero_or_pos tlb.providers.length with h0 | h0
      · rw [List.length_eq_zero] at h0
        rw [h0] at hw
        simp at hw
      · exact h0
    have hs : scanStart tlb < tlb.providers.length := by
      have := scanStart_lt tlb (by rw [hwf.1]; exact hpos)
      rw [hwf.1] at this
      exact this
    have hlt := hwf.2
    have h0 := hun 0 (Nat.succ_pos k)
    rw [Nat.add_zero, Nat.mod_eq_of_lt hs] at h0
    obtain ⟨v, hv⟩ : ∃ v, tlb.providers[scanStart tlb]? = some v :=
      ⟨tlb.providers[scanStart tlb], List.getElem?_eq_getElem hs⟩
    have hvh : v.Healthy = false := by
      simpa [healthyAt, hv] using h0
    have hshift : ∀ j, ((scanStart tlb + 1) % tlb.providers.length + j) % tlb.providers.length
        = (scanStart tlb + (j + 1)) % tlb.providers.length := by
      intro j
      rw [Nat.mod_add_mod]
      congr 1
      omega
    rw [nextProviderLoop_succ, hv]
    simp only [hvh, Bool.false_eq_true, if_false]
    have hnext := scanStart_next tlb hwf hpos
    have := ih f (count + 1) (withCursor tlb ((scanStart tlb + 1) % u32)) w
      (wellFormed_withCursor _ _ hwf) (by omega)
      (by
        intro j hj
        rw [withCursor_providers, hnext, hshift]
        exact hun (j + 1) (by omega))
      (by rw [withCursor_providers, hnext, hshift]; exact hw)
      hh
    rw [this, withCursor_providers, hnext, hshift, withCursor_withCursor]
    congr 2
    omega

theorem nextProviderLoop_none (fuel : Nat) :
    ∀ (count : Nat) (tlb : TestLoadBalancer),
      WellFormed tlb → 0 < tlb.providers.length →
      (∀ j, j < fuel → healthyAt tlb.providers ((scanStart tlb + j) % tlb.providers.length) = false) →
      (nextProviderLoop fuel count tlb).1 = Outcome.err LBError.noHealthyProviders ∧
      (nextProviderLoop fuel count tlb).2.2 = count + fuel ∧
      (nextProviderLoop fuel count tlb).2.1.providers = tlb.providers ∧
      (nextProviderLoop fuel count tlb).2.1.fullness = tlb.fullness := by
  induction fuel with
  | zero =>
    intro count tlb _ _ _
    simp [nextProviderLoop]
  | succ f ih =>
    intro count tlb hwf hpos hun
    have hs : scanStart tlb < tlb.providers.length := by
      have := scanStart_lt tlb (by rw [hwf.1]; exact hpos)
      rw [hwf.1] at this
      exact this
    have h0 := hun 0 (Nat.succ_pos f)
    rw [Nat.add_zero, Nat.mod_eq_of_lt hs] at h0
    obtain ⟨v, hv⟩ : ∃ v, tlb.providers[scanStart tlb]? = some v :=
      ⟨tlb.providers[scanStart tlb], List.getElem?_eq_getElem hs⟩
    have hvh : v.Healthy = false := by
      simpa [healthyAt, hv] using h0
    have hshift : ∀ j, ((scanStart tlb + 1) % tlb.providers.length + j) % tlb.providers.length
        = (scanStart tlb + (j + 1)) % tlb.providers.length := by
      intro j
      rw [Nat.mod_add_mod]
      congr 1
      omega
    rw [nextProviderLoop_succ, hv]
    simp only [hvh, Bool.false_eq_true, if_false]
    have hnext := scanStart_next tlb hwf hpos
    have := ih (count + 1) (withCursor tlb ((scanStart tlb + 1) % u32))
      (wellFormed_withCursor _ _ hwf) hpos
      (by
        intro j hj
        rw [withCursor_providers, hnext, hshift]
        exact hun (j + 1) (by omega))
    obtain ⟨a, b, c, d⟩ := this
    refine ⟨a, ?_, c, d⟩
    rw [b]; omega

theorem Register_ok (tlb : TestLoadBalancer) (providers : List ProviderRef)
    (hwf : WellFormed tlb) (hcap : tlb.providers.length + providers.length ≤ tlb.maxProvidersAllowed)
    (hmax : tlb.maxProvidersAllowed < u32) :
    Register tlb providers =
      (none, { tlb with
                providers := tlb.providers ++ providers.map newEntry
                fullness := tlb.providers.length + providers.length }) := by
  obtain ⟨hf, hlt⟩ := hwf
  unfold Register
  have h1 : (tlb.providers.length + providers.length) % u32
      = tlb.providers.length + providers.length := Nat.mod_eq_of_lt (by omega)
  have h2 : providers.length % u32 = providers.length := Nat.mod_eq_of_lt (by omega)
  rw [h1, if_neg (by omega), hf, h2, h1]
  rfl

theorem registerAll_fresh (batches : List (List ProviderRef)) :
    ∀ tlb : TestLoadBalancer, WellFormed tlb → tlb.maxProvidersAllowed < u32 →
      tlb.providers.length + batches.flatten.length ≤ tlb.maxProvidersAllowed →
      registerAll tlb batches =
        { tlb with
          providers := tlb.providers ++ batches.flatten.map newEntry
          fullness := tlb.providers.length + batches.flatten.length } := by
  induction batches with
  | nil =>
    intro tlb hwf _ _
    simp [registerAll, ← hwf.1]
  | cons b bs ih =>
    intro tlb hwf hmax hcap
    simp only [List.flatten_cons, List.length_append] at hcap
    have hlt := hwf.2
    rw [registerAll, Register_ok tlb b hwf (by omega) hmax]
    dsimp only
    rw [ih]
    · simp only [List.length_append, List.length_map, List.flatten_cons, List.map_append,
        List.append_assoc, Nat.add_assoc]
    · exact ⟨by simp only [List.length_append, List.length_map],
        by simp only [List.length_append, List.length_map]; omega⟩
    · exact hmax
    · simp only [List.length_append, List.length_map]; omega

theorem Get_healthy (h : ProviderStore) (tlb : TestLoadBalancer) (w : ProviderWrapper)
    (hwf : WellFormed tlb) (hw : tlb.providers[scanStart tlb]? = some w)
    (hh : w.Healthy = true) (he : (h w.Provider).enabled = true) :
    Get h tlb = (some (h w.Provider).Id, withCursor tlb (scanStart tlb + 1)) := by
  have hpos : 0 < tlb.providers.length := by
    rcases Nat.eq_zero_or_pos tlb.providers.length with h0 | h0
    · rw [List.length_eq_zero] at h0
      rw [h0] at hw
      simp at hw
    · exact h0
  have hs : scanStart tlb < tlb.providers.length := by
    have := scanStart_lt tlb (by rw [hwf.1]; exact hpos)
    rw [hwf.1] at this
    exact this
  have hloop := nextProviderLoop_found 0 tlb.providers.length 0 tlb w hwf hpos
    (by intro j hj; omega) (by simpa [Nat.mod_eq_of_lt hs] using hw) hh
  simp only [Nat.add_zero, Nat.mod_eq_of_lt hs] at hloop
  have hnp : nextProvider tlb = (Outcome.ok w.Provider, withCursor tlb (scanStart tlb + 1)) := by
    unfold nextProvider nextProviderCount
    rw [if_neg (by rw [hwf.1]; omega), hloop]
  unfold Get
  rw [hnp]
  simp [TestProvider.Get, he]

theorem getMany_allHealthy (h : ProviderStore) (k : Nat) :
    ∀ tlb : TestLoadBalancer, WellFormed tlb → 0 < tlb.providers.length →
      (∀ w ∈ tlb.providers, w.Healthy = true ∧ (h w.Provider).enabled = true) →
      (getMany h k tlb).1 =
          (List.range k).map (fun j =>
            (tlb.providers[(scanStart tlb + j) % tlb.providers.length]?).map
              (fun w => (h w.Provider).Id)) ∧
        (getMany h k tlb).2.providers = tlb.providers ∧
        (getMany h k tlb).2.fullness = tlb.fullness := by
  induction k with
  | zero =>
    intro tlb _ _ _
    simp [getMany]
  | succ k ih =>
    intro tlb hwf hpos hall
    have hs : scanStart tlb < tlb.providers.length := by
      have := scanStart_lt tlb (by rw [hwf.1]; exact hpos)
      rw [hwf.1] at this
      exact this
    have hw : tlb.providers[scanStart tlb]? = some tlb.providers[scanStart tlb] :=
      List.getElem?_eq_getElem hs
    obtain ⟨hh, he⟩ := hall _ (List.getElem_mem hs)
    have hget := Get_healthy h tlb _ hwf hw hh he
    have hnext : scanStart (withCursor tlb (scanStart tlb + 1))
        = (scanStart tlb + 1) % tlb.providers.length := by
      have := scanStart_next tlb hwf hpos
      rwa [Nat.mod_eq_of_lt (by have := hwf.2; omega)] at this
    obtain ⟨i1, i2, i3⟩ := ih (withCursor tlb (scanStart tlb + 1))
      (wellFormed_withCursor _ _ hwf) hpos hall
    rw [getMany, hget]
    refine ⟨?_, i2, i3⟩
    rw [i1, List.range_succ_eq_map, List.map_cons, List.map_map]
    simp only [withCursor_providers, hnext, Nat.add_zero, Nat.mod_eq_of_lt hs, hw, Option.map_some']
    congr 1
    apply List.map_congr_left
    intro j _
    simp only [Function.comp, Nat.succ_eq_add_one, Nat.mod_add_mod]
    congr 3
    omega

theorem getMany_rotate (h : ProviderStore) (tlb : TestLoadBalancer) (hwf : WellFormed tlb)
    (hpos : 0 < tlb.providers.length)
    (hall : ∀ w ∈ tlb.providers, w.Healthy = true ∧ (h w.Provider).enabled = true) :
    (getMany h tlb.providers.length tlb).1 =
      (tlb.providers.rotate (scanStart tlb)).map (fun w => some (h w.Provider).Id) := by
  rw [(getMany_allHealthy h tlb.providers.length tlb hwf hpos hall).1]
  apply List.ext_getElem?
  intro i
  by_cases hi : i < tlb.providers.length
  · rw [List.getElem?_map, List.getElem?_map, List.getElem?_range hi, List.getElem?_rotate hi]
    have hlt : (i + scanStart tlb) % tlb.providers.length < tlb.providers.length :=
      Nat.mod_lt _ hpos
    simp [Nat.add_comm, List.getElem?_eq_getElem hlt]
  · rw [List.getElem?_eq_none (by simpa using hi), List.getElem?_eq_none (by simpa using hi)]

theorem healthyAt_lt {ps : List ProviderWrapper} {i : Nat} (h : healthyAt ps i = true) :
    i < ps.length := by
  by_contra hcon
  have : ps[i]? = none := List.getElem?_eq_none (by omega)
  simp [healthyAt, this] at h

theorem healthyAt_iff {ps : List ProviderWrapper} {i : Nat} :
    healthyAt ps i = true ↔ ∃ w, ps[i]? = some w ∧ w.Healthy = true := by
  unfold healthyAt
  cases hq : ps[i]? with
  | none => simp
  | some v => simp

theorem exists_first_healthy (ps : List ProviderWrapper) (s : Nat) (hs : s < ps.length)
    (hex : ∃ i, healthyAt ps i = true) :
    ∃ k, k < ps.length ∧ healthyAt ps ((s + k) % ps.length) = true ∧
      ∀ j, j < k → healthyAt ps ((s + j) % ps.length) = false := by
  obtain ⟨i, hi⟩ := hex
  have hlt := healthyAt_lt hi
  have hpos : 0 < ps.length := by omega
  have hk0 : healthyAt ps ((s + (i + ps.length - s) % ps.length) % ps.length) = true := by
    rw [Nat.add_mod_mod]
    have : s + (i + ps.length - s) = i + ps.length := by omega
    rw [this, Nat.add_mod_right, Nat.mod_eq_of_lt hlt]
    exact hi
  have hex2 : ∃ k, healthyAt ps ((s + k) % ps.length) = true := ⟨_, hk0⟩
  refine ⟨Nat.find hex2, ?_, Nat.find_spec hex2, ?_⟩
  · exact lt_of_le_of_lt (Nat.find_min' hex2 hk0) (Nat.mod_lt _ hpos)
  · intro j hj
    have := Nat.find_min hex2 hj
    simpa using this

theorem scanStart_eq (tlb : TestLoadBalancer) (hwf : WellFormed tlb) :
    scanStart tlb =
      if tlb.currentProvider < tlb.providers.length then tlb.currentProvider else 0 := by
  unfold scanStart
  rw [hwf.1]
  split <;> split <;> omega

theorem nextProviderCount_selects (tlb : TestLoadBalancer) (hwf : WellFormed tlb)
    (hex : ∃ i, healthyAt tlb.providers i = true) :
    SelectsFirstHealthyFrom (scanStart tlb) tlb := by
  obtain ⟨i, hi⟩ := hex
  have hpos : 0 < tlb.providers.length := by
    have := healthyAt_lt hi
    omega
  have hs : scanStart tlb < tlb.providers.length := by
    have := scanStart_lt tlb (by rw [hwf.1]; exact hpos)
    rw [hwf.1] at this
    exact this
  obtain ⟨k, hk, hkh, hmin⟩ := exists_first_healthy tlb.providers (scanStart tlb) hs ⟨i, hi⟩
  obtain ⟨w, hw, hh⟩ := healthyAt_iff.mp hkh
  refine ⟨k, w, hk, hmin, hw, hh, ?_⟩
  unfold nextProviderCount
  rw [if_neg (by rw [hwf.1]; omega),
    nextProviderLoop_found k tlb.providers.length 0 tlb w hwf hk hmin hw hh, Nat.zero_add]

theorem nextProviderCount_allUnhealthy (tlb : TestLoadBalancer) (hwf : WellFormed tlb)
    (hpos : 0 < tlb.providers.length) (hno : ∀ i, healthyAt tlb.providers i = false) :
    (nextProviderCount tlb).1 = Outcome.err LBError.noHealthyProviders ∧
      (nextProviderCount tlb).2.2 = tlb.providers.length := by
  unfold nextProviderCount
  rw [if_neg (by rw [hwf.1]; omega)]
  obtain ⟨a, b, _, _⟩ := nextProviderLoop_none tlb.providers.length 0 tlb hwf hpos
    (fun j _ => hno _)
  exact ⟨a, by rw [b, Nat.zero_add]⟩

/-- C1: N >= 1 enabled providers registered in order into a fresh balancer of
capacity >= N are returned by N consecutive `Get` calls in registration order;
and from any state whose n >= 1 entries are all healthy and enabled, n
consecutive `Get` calls return every entry once, in cyclic insertion order
starting at the scan start. -/
theorem C1_round_robin_order :
    (∀ (h : ProviderStore) (cap T : Nat) (batches : List (List ProviderRef)),
        cap < u32 → 1 ≤ batches.flatten.length → batches.flatten.length ≤ cap →
        (∀ p ∈ batches.flatten, (h p).enabled = true) →
        (getMany h batches.flatten.length (registerAll (NewTestLoadBalancer cap T) batches)).1
          = batches.flatten.map (fun p => some (h p).Id)) ∧
    (∀ (h : ProviderStore) (tlb : TestLoadBalancer),
        WellFormed tlb → 1 ≤ tlb.providers.length →
        (∀ w ∈ tlb.providers, w.Healthy = true ∧ (h w.Provider).enabled = true) →
        (getMany h tlb.providers.length tlb).1
          = (tlb.providers.rotate
              (if tlb.currentProvider < tlb.providers.length then tlb.currentProvider else 0)).map
              (fun w => some (h w.Provider).Id)) := by
  constructor
  · intro h cap T batches hcap hpos hle hen
    have hreg : registerAll (NewTestLoadBalancer cap T) batches
        = TestLoadBalancer.mk cap 0 batches.flatten.length (batches.flatten.map newEntry) T := by
      rw [registerAll_fresh batches (NewTestLoadBalancer cap T)
        ⟨rfl, by show 0 < u32; decide⟩ hcap (by show 0 + _ ≤ cap; omega)]
      simp only [NewTestLoadBalancer, List.nil_append, List.length_nil, Nat.zero_add]
    rw [hreg]
    generalize batches.flatten = ps at hpos hle hen
    have hrot := getMany_rotate h (TestLoadBalancer.mk cap 0 ps.length (ps.map newEntry) T)
      ⟨by simp only [List.length_map], by simp only [List.length_map]; omega⟩
      (by simp only [List.length_map]; omega)
      (by
        intro w hw
        simp only [List.mem_map] at hw
        obtain ⟨p, hp, rfl⟩ := hw
        exact ⟨rfl, hen p hp⟩)
    simp only [List.length_map] at hrot
    rw [hrot]
    have hs : scanStart (TestLoadBalancer.mk cap 0 ps.length (ps.map newEntry) T) = 0 := by
      unfold scanStart
      split <;> rfl
    rw [hs, List.rotate_zero, List.map_map]
    rfl
  · intro h tlb hwf hpos hall
    rw [getMany_rotate h tlb hwf hpos hall, scanStart_eq tlb hwf]

/-- Witness of C1: the first rotation of the demo restricted to three
providers, and the rotation of the demo after `p-2` and `p-4` were removed,
which returns `p-0, p-1, p-3, p-5, p-6, p-7, p-8, p-9`. -/
theorem C1_round_robin_order_witness :
    (getMany demoStore [[0], [1], [2]].flatten.length
        (registerAll (NewTestLoadBalancer 10 2) [[0], [1], [2]])).1
      = [[0], [1], [2]].flatten.map (fun p => some (demoStore p).Id) ∧
    (getMany demoStore demoAfterRemoval.providers.length demoAfterRemoval).1
      = (demoAfterRemoval.providers.rotate
          (if demoAfterRemoval.currentProvider < demoAfterRemoval.providers.length
            then demoAfterRemoval.currentProvider else 0)).map
          (fun w => some (demoStore w.Provider).Id) ∧
    (demoAfterRemoval.providers.rotate
          (if demoAfterRemoval.currentProvider < demoAfterRemoval.providers.length
            then demoAfterRemoval.currentProvider else 0)).map
          (fun w => some (demoStore w.Provider).Id)
      = [some "p-0", some "p-1", some "p-3", some "p-5", some "p-6", some "p-7", some "p-8",
          some "p-9"] :=
  ⟨C1_round_robin_order.1 demoStore 10 2 [[0], [1], [2]] (by decide) (by decide) (by decide)
      (fun _ _ => rfl),
    C1_round_robin_order.2 demoStore demoAfterRemoval ⟨by decide, by decide⟩ (by decide)
      (by decide),
    by decide⟩

theorem healthyAt_false_of_all {ps : List ProviderWrapper}
    (hall : ∀ w ∈ ps, w.Healthy = false) (i : Nat) : healthyAt ps i = false := by
  unfold healthyAt
  cases hq : ps[i]? with
  | none => rfl
  | some v => exact hall v (List.getElem?_mem hq)

theorem exists_healthyAt_of_mem {ps : List ProviderWrapper} {w : ProviderWrapper}
    (hw : w ∈ ps) (hh : w.Healthy = true) : ∃ i, healthyAt ps i = true := by
  obtain ⟨i, hi, rfl⟩ := List.getElem_of_mem hw
  exact ⟨i, healthyAt_iff.mpr ⟨_, List.getElem?_eq_getElem hi, hh⟩⟩

theorem nextProviderCount_cases (tlb : TestLoadBalancer) (hwf : WellFormed tlb) :
    (tlb.providers = [] ∧
        nextProviderCount tlb = (Outcome.err LBError.noProvidersAdded, tlb, 0)) ∨
    (tlb.providers ≠ [] ∧ (∀ w ∈ tlb.providers, w.Healthy = false) ∧
        (nextProviderCount tlb).1 = Outcome.err LBError.noHealthyProviders ∧
        (nextProviderCount tlb).2.2 = tlb.providers.length) ∨
    (tlb.providers ≠ [] ∧ ∃ i k w, i < tlb.providers.length ∧ k < tlb.providers.length ∧
        tlb.providers[i]? = some w ∧ w.Healthy = true ∧
        nextProviderCount tlb = (Outcome.ok w.Provider, withCursor tlb (i + 1), k)) := by
  by_cases hnil : tlb.providers = []
  · left
    refine ⟨hnil, ?_⟩
    unfold nextProviderCount
    rw [if_pos (by rw [hwf.1, hnil]; rfl)]
  · right
    have hpos : 0 < tlb.providers.length := List.length_pos.mpr hnil
    by_cases hex : ∃ w ∈ tlb.providers, w.Healthy = true
    · right
      obtain ⟨w0, hw0, hh0⟩ := hex
      obtain ⟨k, w, hk, _, hw, hh, heq⟩ :=
        nextProviderCount_selects tlb hwf (exists_healthyAt_of_mem hw0 hh0)
      exact ⟨hnil, _, k, w, Nat.mod_lt _ hpos, hk, hw, hh, heq⟩
    · left
      have hall : ∀ w ∈ tlb.providers, w.Healthy = false := by
        intro w hw
        cases hq : w.Healthy with
        | false => rfl
        | true => exact absurd ⟨w, hw, hq⟩ hex
      obtain ⟨a, b⟩ := nextProviderCount_allUnhealthy tlb hwf hpos
        (healthyAt_false_of_all hall)
      exact ⟨hnil, hall, a, b⟩

/-- C2 as stated fails: in `skewedState` (reached by three registrations,
three `Get` calls and one `Unregister`) the cursor is 3 and two healthy entries
remain; the scan does not start at index `3 mod 2 = 1` but at index 0, and the
cursor ends at 1. -/
theorem C2_scan_from_mod_counterexample :
    skewedState = TestLoadBalancer.mk 3 3 2 [newEntry 1, newEntry 2] 1 ∧
    WellFormed skewedState ∧
    healthyAt skewedState.providers (skewedState.currentProvider % skewedState.providers.length)
      = true ∧
    nextProviderCount skewedState = (Outcome.ok 1, withCursor skewedState 1, 0) ∧
    ¬ SelectsFirstHealthyFrom (skewedState.currentProvider % skewedState.providers.length)
        skewedState := by
  refine ⟨by decide, ⟨by decide, by decide⟩, by decide, by decide, ?_⟩
  rintro ⟨k, w, _, _, _, _, heq⟩
  have h1 : nextProviderCount skewedState = (Outcome.ok 1, withCursor skewedState 1, 0) := by
    decide
  rw [h1] at heq
  have hk : 0 = k := congrArg (fun r => r.2.2) heq
  subst hk
  have hc : (1 : Nat) = (3 % 2 + 0) % 2 + 1 :=
    congrArg (fun r => r.2.1.currentProvider) heq
  exact absurd hc (by decide)

/-- C2 (amended): with at least one healthy entry, the scan starts at the
cursor when the cursor is below the length `n` and at index 0 otherwise (which
is `cursor mod n` as long as the cursor is at most `n`); it passes over the
unhealthy entries in cyclic order, selects the first healthy one and leaves the
cursor one past the selected index. -/
theorem C2_scan_from_cursor_or_zero (tlb : TestLoadBalancer) (hwf : WellFormed tlb)
    (hex : ∃ i, healthyAt tlb.providers i = true) :
    SelectsFirstHealthyFrom
        (if tlb.currentProvider < tlb.providers.length then tlb.currentProvider else 0) tlb ∧
      (tlb.currentProvider ≤ tlb.providers.length →
        (if tlb.currentProvider < tlb.providers.length then tlb.currentProvider else 0)
          = tlb.currentProvider % tlb.providers.length) := by
  refine ⟨?_, ?_⟩
  · rw [← scanStart_eq tlb hwf]
    exact nextProviderCount_selects tlb hwf hex
  · intro hle
    split
    · rw [Nat.mod_eq_of_lt (by assumption)]
    · have : tlb.currentProvider = tlb.providers.length := by omega
      rw [this, Nat.mod_self]

/-- Witness of the amended C2 at `skewedState`. -/
theorem C2_scan_from_cursor_or_zero_witness :
    SelectsFirstHealthyFrom
        (if skewedState.currentProvider < skewedState.providers.length
          then skewedState.currentProvider else 0) skewedState ∧
      (skewedState.currentProvider ≤ skewedState.providers.length →
        (if skewedState.currentProvider < skewedState.providers.length
          then skewedState.currentProvider else 0)
          = skewedState.currentProvider % skewedState.providers.length) :=
  C2_scan_from_cursor_or_zero skewedState ⟨by decide, by decide⟩ ⟨0, by decide⟩

theorem Get_state (h : ProviderStore) (tlb : TestLoadBalancer) :
    (Get h tlb).2 = (nextProvider tlb).2 := by
  unfold Get
  generalize nextProvider tlb = r
  obtain ⟨o, t⟩ := r
  cases o with
  | ok p =>
    simp only
    generalize (h p).Get = g
    obtain ⟨s, e⟩ := g
    cases e <;> rfl
  | err e => rfl
  | indexOutOfRange => rfl

/-- C3: in a state with `fullness = len(providers) < 2^32` and any cursor,
`nextProvider` fails with "no providers added" iff the registry is empty, fails
with "no healthy providers" iff it is non-empty without a healthy entry, and
otherwise returns the provider of an entry whose `Healthy` flag is true; it
never faults and reads at most `n` entries.  `Get` leaves the state of that one
scan and returns: the "no providers added" text on an empty registry, the
"no healthy providers" text on a non-empty registry without a healthy entry,
and otherwise the identity of the selected healthy entry's provider, or the
provider error text (different from both load-balancer texts) when that
provider is disabled. -/
theorem C3_nextProvider_errors (tlb : TestLoadBalancer) (hwf : WellFormed tlb) :
    ((nextProvider tlb).1 = Outcome.err LBError.noProvidersAdded ↔ tlb.providers = []) ∧
    ((nextProvider tlb).1 = Outcome.err LBError.noHealthyProviders ↔
        tlb.providers ≠ [] ∧ ∀ w ∈ tlb.providers, w.Healthy = false) ∧
    ((tlb.providers ≠ [] ∧ ∃ w ∈ tlb.providers, w.Healthy = true) →
        ∃ i w, tlb.providers[i]? = some w ∧ w.Healthy = true ∧
          nextProvider tlb = (Outcome.ok w.Provider, withCursor tlb (i + 1))) ∧
    (∀ p, (nextProvider tlb).1 = Outcome.ok p →
        ∃ i w, tlb.providers[i]? = some w ∧ w.Healthy = true ∧ w.Provider = p ∧
          (nextProvider tlb).2 = withCursor tlb (i + 1)) ∧
    (nextProvider tlb).1 ≠ Outcome.indexOutOfRange ∧
    (nextProviderCount tlb).2.2 ≤ tlb.providers.length ∧
    (∀ p, (nextProviderCount tlb).1 = Outcome.ok p →
        (nextProviderCount tlb).2.2 + 1 ≤ tlb.providers.length) ∧
    (∀ h : ProviderStore, tlb.providers = [] →
        (Get h tlb).1 = some ("LoadBanalcer error: " ++ "no providers added\r\n" ++ "\r\n")) ∧
    (∀ h : ProviderStore, tlb.providers ≠ [] → (∀ w ∈ tlb.providers, w.Healthy = false) →
        (Get h tlb).1 = some ("LoadBanalcer error: " ++ "no healthy providers\r\n" ++ "\r\n")) ∧
    (∀ h : ProviderStore, (Get h tlb).2 = (nextProvider tlb).2) ∧
    (∀ h : ProviderStore, tlb.providers = [] →
        Get h tlb = (some "LoadBanalcer error: no providers added\r\n\r\n", tlb)) ∧
    (∀ h : ProviderStore, (tlb.providers ≠ [] ∧ ∃ w ∈ tlb.providers, w.Healthy = true) →
        ∃ i w, tlb.providers[i]? = some w ∧ w.Healthy = true ∧
          nextProvider tlb = (Outcome.ok w.Provider, withCursor tlb (i + 1)) ∧
          Get h tlb =
            (some (if (h w.Provider).enabled = true then (h w.Provider).Id
                else "Provider error: provider not enabled\r\n"),
              withCursor tlb (i + 1)) ∧
          ((h w.Provider).enabled = false →
            (Get h tlb).1 ≠ some "LoadBanalcer error: no providers added\r\n\r\n" ∧
            (Get h tlb).1 ≠ some "LoadBanalcer error: no healthy providers\r\n\r\n")) := by
  rcases nextProviderCount_cases tlb hwf with ⟨hnil, heq⟩ | ⟨hne, hall, h1, h2⟩ |
    ⟨hne, i, k, w, hi, hk, hw, hh, heq⟩
  · have hnp : nextProvider tlb = (Outcome.err LBError.noProvidersAdded, tlb) := by
      unfold nextProvider; rw [heq]
    refine ⟨?_, ?_, ?_, ?_, ?_, ?_, ?_, ?_, ?_, fun h => Get_state h tlb, ?_, ?_⟩
    · simp [hnp, hnil]
    · simp [hnp, hnil]
    · rintro ⟨hne, _⟩; exact absurd hnil hne
    · intro p hp; rw [hnp] at hp; cases hp
    · rw [hnp]; simp
    · rw [heq]; exact Nat.zero_le _
    · intro p hp; rw [heq] at hp; cases hp
    · intro h _; unfold Get; rw [hnp]; rfl
    · intro h hne; exact absurd hnil hne
    · intro h _; unfold Get; rw [hnp]; rfl
    · rintro h ⟨hne, _⟩; exact absurd hnil hne
  · have hnp : (nextProvider tlb).1 = Outcome.err LBError.noHealthyProviders := h1
    refine ⟨?_, ?_, ?_, ?_, ?_, ?_, ?_, ?_, ?_, fun h => Get_state h tlb, ?_, ?_⟩
    · simp [hnp, hne]
    · simp only [hnp, true_iff]; exact ⟨hne, hall⟩
    · rintro ⟨_, w, hw, hh⟩; rw [hall w hw] at hh; cases hh
    · intro p hp; rw [hnp] at hp; cases hp
    · rw [hnp]; simp
    · rw [h2]
    · intro p hp; rw [h1] at hp; cases hp
    · intro h hnil; exact absurd hnil hne
    · intro h _ _
      unfold Get
      generalize hr : nextProvider tlb = r at hnp
      obtain ⟨o, t⟩ := r
      simp only at hnp
      subst hnp
      rfl
    · intro h hnil; exact absurd hnil hne
    · rintro h ⟨_, w, hw, hh⟩; rw [hall w hw] at hh; cases hh
  · have hnp : nextProvider tlb = (Outcome.ok w.Provider, withCursor tlb (i + 1)) := by
      unfold nextProvider; rw [heq]
    have hmem : w ∈ tlb.providers := List.getElem?_mem hw
    refine ⟨?_, ?_, ?_, ?_, ?_, ?_, ?_, ?_, ?_, fun h => Get_state h tlb, ?_, ?_⟩
    · simp [hnp, hne]
    · rw [hnp]
      constructor
      · intro hp; cases hp
      · rintro ⟨_, hall⟩; rw [hall w hmem] at hh; cases hh
    · intro _; exact ⟨i, w, hw, hh, hnp⟩
    · intro p hp
      rw [hnp] at hp
      refine ⟨i, w, hw, hh, ?_, by rw [hnp]⟩
      simpa using hp
    · rw [hnp]; simp
    · rw [heq]; exact Nat.le_of_lt hk
    · intro p _; rw [heq]; exact hk
    · intro h hnil; exact absurd hnil hne
    · intro h _ hall; rw [hall w hmem] at hh; cases hh
    · intro h hnil; exact absurd hnil hne
    · intro h _
      have hget : Get h tlb =
          (some (if (h w.Provider).enabled = true then (h w.Provider).Id
              else "Provider error: provider not enabled\r\n"),
            withCursor tlb (i + 1)) := by
        unfold Get
        rw [hnp]
        cases he : (h w.Provider).enabled with
        | true => simp [TestProvider.Get, he]
        | false =>
          simp only [TestProvider.Get, he, Bool.not_false, if_true, Bool.false_eq_true,
            if_false]
          rfl
      refine ⟨i, w, hw, hh, hnp, hget, ?_⟩
      intro he
      rw [hget, he]
      constructor
      · show some "Provider error: provider not enabled\r\n"
          ≠ some "LoadBanalcer error: no providers added\r\n\r\n"
        decide
      · show some "Provider error: provider not enabled\r\n"
          ≠ some "LoadBanalcer error: no healthy providers\r\n\r\n"
        decide

/-- Witness of C3: with both entries unhealthy, `nextProvider` fails with
"no healthy providers" after reading two entries and `Get` reports it; in
`skewedState`, with healthy entries and cursor 3, `Get` returns `p-1` and
leaves the cursor at 1. -/
theorem C3_nextProvider_errors_witness :
    (nextProvider allDownState).1 = Outcome.err LBError.noHealthyProviders ∧
    (nextProviderCount allDownState).2.2 ≤ 2 ∧
    (Get demoStore allDownState).1
      = some ("LoadBanalcer error: " ++ "no healthy providers\r\n" ++ "\r\n") ∧
    (∃ i w, skewedState.providers[i]? = some w ∧ w.Healthy = true ∧
      nextProvider skewedState = (Outcome.ok w.Provider, withCursor skewedState (i + 1)) ∧
      Get demoStore skewedState =
        (some (if (demoStore w.Provider).enabled = true then (demoStore w.Provider).Id
            else "Provider error: provider not enabled\r\n"),
          withCursor skewedState (i + 1)) ∧
      ((demoStore w.Provider).enabled = false →
        (Get demoStore skewedState).1 ≠ some "LoadBanalcer error: no providers added\r\n\r\n" ∧
        (Get demoStore skewedState).1
          ≠ some "LoadBanalcer error: no healthy providers\r\n\r\n")) ∧
    Get demoStore skewedState = (some "p-1", withCursor skewedState 1) :=
  ⟨(C3_nextProvider_errors allDownState ⟨by decide, by decide⟩).2.1.mpr
      ⟨by decide, by decide⟩,
    (C3_nextProvider_errors allDownState ⟨by decide, by decide⟩).2.2.2.2.2.1,
    (C3_nextProvider_errors allDownState ⟨by decide, by decide⟩).2.2.2.2.2.2.2.2.1 demoStore
      (by decide) (by decide),
    (C3_nextProvider_errors skewedState ⟨by decide, by decide⟩).2.2.2.2.2.2.2.2.2.2.2 demoStore
      ⟨by decide, by decide⟩,
    by decide⟩

/-- C4: when `s + k` is below 2^32, `Register` of `k` providers into a state
holding `s` entries returns an error iff `s + k` exceeds the capacity, and an
error leaves the whole state (entries, size counter, cursor) as it was. -/
theorem C4_register_capacity_atomic (tlb : TestLoadBalancer) (providers : List ProviderRef)
    (hfit : tlb.providers.length + providers.length < u32) :
    ((Register tlb providers).1 ≠ none ↔
        tlb.providers.length + providers.length > tlb.maxProvidersAllowed) ∧
    ((Register tlb providers).1 ≠ none → (Register tlb providers).2 = tlb) := by
  have hmod : (tlb.providers.length + providers.length) % u32
      = tlb.providers.length + providers.length := Nat.mod_eq_of_lt hfit
  unfold Register
  rw [hmod]
  by_cases hc : tlb.providers.length + providers.length > tlb.maxProvidersAllowed
  · rw [if_pos hc]
    simp [hc]
  · rw [if_neg hc]
    simp [hc]

/-- Witness of C4: with the ten providers of the demo registered and capacity
10, the eleventh registration is rejected and the state stays as it was. -/
theorem C4_register_capacity_atomic_witness :
    demoFull.providers.length = 10 ∧ demoFull.maxProvidersAllowed = 10 ∧
    (Register demoFull [11]).1 ≠ none ∧ (Register demoFull [11]).2 = demoFull :=
  ⟨by decide, by decide,
    (C4_register_capacity_atomic demoFull [11] (by decide)).1.mpr (by decide),
    (C4_register_capacity_atomic demoFull [11] (by decide)).2
      ((C4_register_capacity_atomic demoFull [11] (by decide)).1.mpr (by decide))⟩

theorem Register_replicate_fresh (cap T n : Nat) (p : ProviderRef) (h : n % u32 ≤ cap) :
    (Register (NewTestLoadBalancer cap T) (List.replicate n p)).1 = none ∧
    (Register (NewTestLoadBalancer cap T) (List.replicate n p)).2.providers.length = n ∧
    (Register (NewTestLoadBalancer cap T) (List.replicate n p)).2.maxProvidersAllowed = cap ∧
    (Register (NewTestLoadBalancer cap T) (List.replicate n p)).2.fullness = n % u32 := by
  unfold Register NewTestLoadBalancer
  simp only [List.length_nil, Nat.zero_add, List.length_replicate]
  rw [if_neg (by omega)]
  simp only [List.nil_append, List.length_map, List.length_replicate, Nat.mod_mod, and_self]

/-- C6: a successful `Register` appends one entry per argument, in argument
order, each with `Healthy = true` and `HealthCheckPassed = 0`, after the
existing entries, which are kept as they are; nothing is de-duplicated and the
cursor, the capacity and the threshold are unchanged. -/
theorem C6_register_appends (tlb : TestLoadBalancer) (providers : List ProviderRef)
    (hok : (Register tlb providers).1 = none) :
    (Register tlb providers).2.providers
        = tlb.providers ++ providers.map
            (fun p => ProviderWrapper.mk true 0 p) ∧
    (Register tlb providers).2.providers.length = tlb.providers.length + providers.length ∧
    (Register tlb providers).2.providers.take tlb.providers.length = tlb.providers ∧
    (∀ j p, providers[j]? = some p →
        (Register tlb providers).2.providers[tlb.providers.length + j]?
          = some (ProviderWrapper.mk true 0 p)) ∧
    (Register tlb providers).2.currentProvider = tlb.currentProvider ∧
    (Register tlb providers).2.maxProvidersAllowed = tlb.maxProvidersAllowed ∧
    (Register tlb providers).2.HealthCheckPassesThreshold = tlb.HealthCheckPassesThreshold := by
  unfold Register at hok ⊢
  split at hok
  · cases hok
  · rename_i hc
    rw [if_neg hc]
    refine ⟨rfl, ?_, ?_, ?_, rfl, rfl, rfl⟩
    · simp
    · simp
    · intro j p hj
      simp only
      rw [List.getElem?_append_right (Nat.le_add_right _ _), Nat.add_sub_cancel_left,
        List.getElem?_map, hj]
      rfl

/-- Witness of C6: a provider that is already registered is appended again as
a further entry at the end. -/
theorem C6_register_appends_witness :
    (Register skewedState [1]).2.providers
      = skewedState.providers ++ [1].map (fun p => ProviderWrapper.mk true 0 p) :=
  (C6_register_appends skewedState [1] (by decide)).1

theorem unregisterLoop_succ (h : ProviderStore) (providerID : String) (tlb : TestLoadBalancer)
    (fuel i : Nat) (w : ProviderWrapper) (hw : tlb.providers[i]? = some w) :
    unregisterLoop h providerID tlb (fuel + 1) i =
      if fetchedId h w = providerID then (none, removeAt tlb i)
      else unregisterLoop h providerID tlb fuel (i + 1) := by
  rw [unregisterLoop, hw]
  rfl

theorem unregisterLoop_found (h : ProviderStore) (providerID : String) (tlb : TestLoadBalancer)
    (i0 : Nat) (w : ProviderWrapper) (hw : tlb.providers[i0]? = some w)
    (hid : fetchedId h w = providerID) (fuel : Nat) :
    ∀ i, i ≤ i0 → i0 < i + fuel →
      (∀ j v, i ≤ j → j < i0 → tlb.providers[j]? = some v → fetchedId h v ≠ providerID) →
      unregisterLoop h providerID tlb fuel i = (none, removeAt tlb i0) := by
  induction fuel with
  | zero => intro i h1 h2 _; omega
  | succ f ih =>
    intro i h1 h2 hmin
    rcases Nat.eq_or_lt_of_le h1 with heq | hlt
    · subst heq
      rw [unregisterLoop_succ h providerID tlb f i w hw, if_pos hid]
    · have hlen : i0 < tlb.providers.length := by
        by_contra hcon
        rw [List.getElem?_eq_none (by omega)] at hw
        cases hw
      have hv : tlb.providers[i]? = some tlb.providers[i] :=
        List.getElem?_eq_getElem (by omega)
      rw [unregisterLoop_succ h providerID tlb f i _ hv,
        if_neg (hmin i _ (Nat.le_refl i) hlt hv)]
      exact ih (i + 1) (by omega) (by omega)
        (fun j v hj1 hj2 hjv => hmin j v (by omega) hj2 hjv)

theorem unregisterLoop_notFound (h : ProviderStore) (providerID : String)
    (tlb : TestLoadBalancer) (fuel : Nat) :
    ∀ i, (∀ j v, i ≤ j → tlb.providers[j]? = some v → fetchedId h v ≠ providerID) →
      unregisterLoop h providerID tlb fuel i = (some (LBError.notFound providerID), tlb) := by
  induction fuel with
  | zero => intro i _; rfl
  | succ f ih =>
    intro i hno
    cases hv : tlb.providers[i]? with
    | none => rw [unregisterLoop, hv]
    | some v =>
      rw [unregisterLoop_succ h providerID tlb f i v hv, if_neg (hno i v (Nat.le_refl i) hv)]
      exact ih (i + 1) (fun j u hj hju => hno j u (by omega) hju)

theorem Unregister_found (h : ProviderStore) (tlb : TestLoadBalancer) (providerID : String)
    (i0 : Nat) (w : ProviderWrapper) (hw : tlb.providers[i0]? = some w)
    (hid : fetchedId h w = providerID)
    (hmin : ∀ j v, j < i0 → tlb.providers[j]? = some v → fetchedId h v ≠ providerID) :
    Unregister h tlb providerID = (none, removeAt tlb i0) := by
  have hlen : i0 < tlb.providers.length := by
    by_contra hcon
    rw [List.getElem?_eq_none (by omega)] at hw
    cases hw
  exact unregisterLoop_found h providerID tlb i0 w hw hid tlb.providers.length 0
    (Nat.zero_le _) (by omega) (fun j v _ hj hjv => hmin j v hj hjv)

theorem Unregister_notFound (h : ProviderStore) (tlb : TestLoadBalancer) (providerID : String)
    (hno : ∀ v ∈ tlb.providers, fetchedId h v ≠ providerID) :
    Unregister h tlb providerID = (some (LBError.notFound providerID), tlb) :=
  unregisterLoop_notFound h providerID tlb tlb.providers.length 0
    (fun _ v _ hjv => hno v (List.getElem?_mem hjv))

theorem exists_first_index {α : Type} (ps : List α) (P : α → Prop)
    (hex : ∃ w ∈ ps, P w) :
    ∃ (i : Nat) (w : α), ps[i]? = some w ∧ P w ∧
      ∀ (j : Nat) (v : α), j < i → ps[j]? = some v → ¬ P v := by
  classical
  have hex2 : ∃ i : Nat, ∃ w, ps[i]? = some w ∧ P w := by
    obtain ⟨w, hw, hp⟩ := hex
    obtain ⟨i, hi, rfl⟩ := List.getElem_of_mem hw
    exact ⟨i, _, List.getElem?_eq_getElem hi, hp⟩
  obtain ⟨w, hw, hp⟩ := Nat.find_spec hex2
  refine ⟨Nat.find hex2, w, hw, hp, ?_⟩
  intro j v hj hjv hpv
  exact Nat.find_min hex2 hj ⟨v, hjv, hpv⟩

theorem fetchedId_enabled (h : ProviderStore) (w : ProviderWrapper)
    (he : (h w.Provider).enabled = true) : fetchedId h w = (h w.Provider).Id := by
  simp [fetchedId, TestProvider.Get, he]

theorem fetchedId_disabled (h : ProviderStore) (w : ProviderWrapper)
    (he : (h w.Provider).enabled = false) : fetchedId h w = "" := by
  simp [fetchedId, TestProvider.Get, he]

theorem fetchedId_eq_iff (h : ProviderStore) (w : ProviderWrapper) (providerID : String)
    (hne : providerID ≠ "") :
    fetchedId h w = providerID ↔
      ((h w.Provider).enabled = true ∧ (h w.Provider).Id = providerID) := by
  cases he : (h w.Provider).enabled with
  | true => rw [fetchedId_enabled h w he]; simp
  | false =>
    rw [fetchedId_disabled h w he]
    constructor
    · intro hc; exact absurd hc.symm hne
    · rintro ⟨hc, _⟩; cases hc

theorem removeAt_length (tlb : TestLoadBalancer) (i : Nat) (hi : i < tlb.providers.length) :
    (removeAt tlb i).providers.length + 1 = tlb.providers.length := by
  simp only [removeAt, List.length_append, List.length_take, List.length_drop]
  omega

theorem decU32_eq_mod (x : Nat) (hx : x < u32) : decU32 x = (x + u32 - 1) % u32 := by
  have hu : u32 = 4294967296 := rfl
  unfold decU32
  rw [hu] at hx ⊢
  split <;> omega

theorem decU32_pos (x : Nat) (hx : 0 < x) : decU32 x = x - 1 := by
  unfold decU32
  rw [if_neg (by omega)]

/-- C7: when all registered providers are enabled and some entry has identity
`X`, `Unregister(X)` returns nil and removes exactly the first entry whose
identity is `X`; the other entries keep their order and contents, the length
and (in a well-formed state) the size counter decrease by one, and the cursor
is untouched. -/
theorem C7_unregister_removes_first (h : ProviderStore) (tlb : TestLoadBalancer)
    (providerID : String)
    (hen : ∀ w ∈ tlb.providers, (h w.Provider).enabled = true)
    (hex : ∃ w ∈ tlb.providers, (h w.Provider).Id = providerID) :
    ∃ (i : Nat) (w : ProviderWrapper),
      tlb.providers[i]? = some w ∧ (h w.Provider).Id = providerID ∧
      (∀ (j : Nat) (v : ProviderWrapper), j < i → tlb.providers[j]? = some v →
        (h v.Provider).Id ≠ providerID) ∧
      (Unregister h tlb providerID).1 = none ∧
      (Unregister h tlb providerID).2.providers
        = tlb.providers.take i ++ tlb.providers.drop (i + 1) ∧
      (Unregister h tlb providerID).2.providers = tlb.providers.eraseIdx i ∧
      (Unregister h tlb providerID).2.providers.length + 1 = tlb.providers.length ∧
      (Unregister h tlb providerID).2.currentProvider = tlb.currentProvider ∧
      (WellFormed tlb →
        WellFormed (Unregister h tlb providerID).2 ∧
        (Unregister h tlb providerID).2.fullness + 1 = tlb.fullness) := by
  obtain ⟨i, w, hw, hid, hmin⟩ :=
    exists_first_index tlb.providers (fun w => (h w.Provider).Id = providerID) hex
  have hlen : i < tlb.providers.length := by
    by_contra hcon
    rw [List.getElem?_eq_none (by omega)] at hw
    cases hw
  have hun : Unregister h tlb providerID = (none, removeAt tlb i) := by
    apply Unregister_found h tlb providerID i w hw
    · rw [fetchedId_enabled h w (hen w (List.getElem?_mem hw))]; exact hid
    · intro j v hj hjv
      rw [fetchedId_enabled h v (hen v (List.getElem?_mem hjv))]
      exact hmin j v hj hjv
  have hl := removeAt_length tlb i hlen
  refine ⟨i, w, hw, hid, hmin, ?_, ?_, ?_, ?_, ?_, ?_⟩
  · rw [hun]
  · rw [hun]; rfl
  · rw [hun, List.eraseIdx_eq_take_drop_succ]; rfl
  · rw [hun]; exact hl
  · rw [hun]; rfl
  · rintro ⟨hf, hlt⟩
    rw [hun]
    show WellFormed (removeAt tlb i) ∧ (removeAt tlb i).fullness + 1 = tlb.fullness
    have hfull : (removeAt tlb i).fullness = tlb.fullness - 1 :=
      decU32_pos tlb.fullness (by omega)
    refine ⟨⟨?_, ?_⟩, ?_⟩
    · rw [hfull]; omega
    · omega
    · rw [hfull]; omega

/-- Witness of C7: the demo's `Unregister("p-2")` after the ten registrations. -/
theorem C7_unregister_removes_first_witness :
    ∃ (i : Nat) (w : ProviderWrapper),
      demoFull.providers[i]? = some w ∧ (demoStore w.Provider).Id = "p-2" ∧
      (∀ (j : Nat) (v : ProviderWrapper), j < i → demoFull.providers[j]? = some v →
        (demoStore v.Provider).Id ≠ "p-2") ∧
      (Unregister demoStore demoFull "p-2").1 = none ∧
      (Unregister demoStore demoFull "p-2").2.providers
        = demoFull.providers.take i ++ demoFull.providers.drop (i + 1) ∧
      (Unregister demoStore demoFull "p-2").2.providers = demoFull.providers.eraseIdx i ∧
      (Unregister demoStore demoFull "p-2").2.providers.length + 1 = demoFull.providers.length ∧
      (Unregister demoStore demoFull "p-2").2.currentProvider = demoFull.currentProvider ∧
      (WellFormed demoFull →
        WellFormed (Unregister demoStore demoFull "p-2").2 ∧
        (Unregister demoStore demoFull "p-2").2.fullness + 1 = demoFull.fullness) :=
  C7_unregister_removes_first demoStore demoFull "p-2" (by decide) (by decide)

/-- C8 as stated fails: with `p-5` registered and disabled, `Unregister("p-5")`
finds no entry, returns the not-found error and removes nothing. -/
theorem C8_disabled_not_matched_counterexample :
    (∃ w ∈ demoFull.providers, (demoStoreFiveDown w.Provider).Id = "p-5" ∧
        (demoStoreFiveDown w.Provider).enabled = false) ∧
    Unregister demoStoreFiveDown demoFull "p-5" = (some (LBError.notFound "p-5"), demoFull) := by
  decide

/-- C8 (amended): for a non-empty identity `X`, `Unregister(X)` matches an
entry only when its provider is enabled and has identity `X`: it removes the
first such entry, and when every entry with identity `X` is disabled it returns
the not-found error and leaves the state unchanged. -/
theorem C8_unregister_matches_enabled_only (h : ProviderStore) (tlb : TestLoadBalancer)
    (providerID : String) (hne : providerID ≠ "") :
    ((∀ w ∈ tlb.providers, (h w.Provider).Id = providerID → (h w.Provider).enabled = false) →
        Unregister h tlb providerID = (some (LBError.notFound providerID), tlb)) ∧
    (∀ (i : Nat) (w : ProviderWrapper), tlb.providers[i]? = some w →
        (h w.Provider).enabled = true → (h w.Provider).Id = providerID →
        (∀ (j : Nat) (v : ProviderWrapper), j < i → tlb.providers[j]? = some v →
          ¬ ((h v.Provider).enabled = true ∧ (h v.Provider).Id = providerID)) →
        (Unregister h tlb providerID).1 = none ∧
        (Unregister h tlb providerID).2.providers
          = tlb.providers.take i ++ tlb.providers.drop (i + 1)) := by
  constructor
  · intro hall
    apply Unregister_notFound
    intro v hv hc
    rw [fetchedId_eq_iff h v providerID hne] at hc
    rw [hall v hv hc.2] at hc
    cases hc.1
  · intro i w hw he hid hmin
    have hun : Unregister h tlb providerID = (none, removeAt tlb i) := by
      apply Unregister_found h tlb providerID i w hw
      · rw [fetchedId_eq_iff h w providerID hne]; exact ⟨he, hid⟩
      · intro j v hj hjv
        rw [Ne, fetchedId_eq_iff h v providerID hne]
        exact hmin j v hj hjv
    rw [hun]
    exact ⟨rfl, rfl⟩

/-- Witness of the amended C8: the disabled `p-5` is not matched by its
identity. -/
theorem C8_unregister_matches_enabled_only_witness :
    Unregister demoStoreFiveDown demoFull "p-5" = (some (LBError.notFound "p-5"), demoFull) :=
  (C8_unregister_matches_enabled_only demoStoreFiveDown demoFull "p-5" (by decide)).1
    (by decide)

/-- C9 at the failing input: no registered provider has the empty identity,
`p-5` is disabled, and `Unregister("")` returns nil and removes the entry of
`p-5`, because the failed identity fetch yields the empty string and its error
is dropped. -/
theorem C9_unregister_empty_id_removes_disabled :
    (∀ w ∈ demoFull.providers, (demoStoreFiveDown w.Provider).Id ≠ "") ∧
    (Unregister demoStoreFiveDown demoFull "").1 = none ∧
    (Unregister demoStoreFiveDown demoFull "").2.providers = demoFull.providers.eraseIdx 5 ∧
    (Unregister demoStoreFiveDown demoFull "").2.providers.length = 9 ∧
    (Unregister demoStoreFiveDown demoFull "").2.fullness = 9 := by
  decide

theorem healthCheckLoop_getElem? (h : ProviderStore) (threshold : Nat) (fuel : Nat) :
    ∀ (i : Nat) (ps : List ProviderWrapper) (j : Nat), i + fuel = ps.length →
      (healthCheckLoop h threshold fuel i ps)[j]? =
        if i ≤ j then (ps[j]?).map (healthCheckEntry h threshold) else ps[j]? := by
  induction fuel with
  | zero =>
    intro i ps j hlen
    rw [healthCheckLoop]
    split
    · rw [List.getElem?_eq_none (by omega)]; rfl
    · rfl
  | succ f ih =>
    intro i ps j hlen
    have hi : i < ps.length := by omega
    rw [healthCheckLoop, List.getElem?_eq_getElem hi]
    simp only
    rw [ih (i + 1) _ j (by rw [List.length_set]; omega), List.getElem?_set]
    by_cases hij : i = j
    · subst hij
      rw [if_neg (by omega), if_pos rfl, if_pos hi, if_pos (Nat.le_refl i),
        List.getElem?_eq_getElem hi]
      rfl
    · rw [if_neg hij]
      by_cases hlt : i + 1 ≤ j
      · rw [if_pos hlt, if_pos (by omega)]
      · rw [if_neg hlt, if_neg (by omega)]

theorem healthCheckLoop_eq_map (h : ProviderStore) (threshold : Nat)
    (ps : List ProviderWrapper) :
    healthCheckLoop h threshold ps.length 0 ps = ps.map (healthCheckEntry h threshold) := by
  apply List.ext_getElem?
  intro j
  rw [healthCheckLoop_getElem? h threshold ps.length 0 ps j (Nat.zero_add _),
    if_pos (Nat.zero_le j), List.getElem?_map]

theorem performHealthCheck_eq (h : ProviderStore) (tlb : TestLoadBalancer) :
    performHealthCheck h tlb =
      { tlb with
        providers := tlb.providers.map (healthCheckEntry h tlb.HealthCheckPassesThreshold) } := by
  unfold performHealthCheck
  rw [healthCheckLoop_eq_map]

theorem sweeps_getElem? (hs : List ProviderStore) :
    ∀ (tlb : TestLoadBalancer) (i : Nat),
      (sweeps hs tlb).providers[i]? =
          (tlb.providers[i]?).map
            (fun w => hs.foldl (fun e h => healthCheckEntry h tlb.HealthCheckPassesThreshold e) w) ∧
        (sweeps hs tlb).HealthCheckPassesThreshold = tlb.HealthCheckPassesThreshold := by
  induction hs with
  | nil =>
    intro tlb i
    simp [sweeps]
  | cons h hs ih =>
    intro tlb i
    have hstep : sweeps (h :: hs) tlb = sweeps hs (performHealthCheck h tlb) := rfl
    obtain ⟨i1, i2⟩ := ih (performHealthCheck h tlb) i
    rw [hstep, i1, i2, performHealthCheck_eq]
    simp only [List.getElem?_map, Option.map_map, List.foldl_cons]
    exact ⟨rfl, trivial⟩

theorem healthCheckEntry_fail (h : ProviderStore) (threshold : Nat) (w : ProviderWrapper)
    (hc : (h w.Provider).Check = false) :
    healthCheckEntry h threshold w = ProviderWrapper.mk false 0 w.Provider := by
  simp [healthCheckEntry, hc]

theorem healthCheckEntry_pass (h : ProviderStore) (threshold m : Nat) (p : ProviderRef)
    (h2 : threshold < u32) (hc : (h p).Check = true) :
    healthCheckEntry h threshold (ProviderWrapper.mk (decide (threshold ≤ m)) (m % u32) p)
      = ProviderWrapper.mk (decide (threshold ≤ m + 1)) ((m + 1) % u32) p := by
  have hmod : (m % u32 + 1) % u32 = (m + 1) % u32 := Nat.mod_add_mod m u32 1
  have hle : (m + 1) % u32 ≤ m + 1 := Nat.mod_le _ _
  unfold healthCheckEntry
  simp only [hc, Bool.not_true, Bool.false_eq_true, if_false, hmod]
  by_cases hge : (m + 1) % u32 ≥ threshold
  · rw [if_pos hge]
    have : threshold ≤ m + 1 := by omega
    simp [this]
  · rw [if_neg hge]
    have hne : threshold ≠ m + 1 := by
      intro heq
      apply hge
      rw [← heq, Nat.mod_eq_of_lt h2]
    have : decide (threshold ≤ m) = decide (threshold ≤ m + 1) := by
      by_cases hm : threshold ≤ m
      · have : threshold ≤ m + 1 := by omega
        simp [hm, this]
      · have : ¬ threshold ≤ m + 1 := by omega
        simp [hm, this]
    rw [this]

theorem foldl_healthCheckEntry_pass (threshold : Nat) (p : ProviderRef)
    (h2 : threshold < u32) (hs : List ProviderStore) :
    ∀ m, (∀ h ∈ hs, (h p).Check = true) →
      hs.foldl (fun e h => healthCheckEntry h threshold e)
          (ProviderWrapper.mk (decide (threshold ≤ m)) (m % u32) p)
        = ProviderWrapper.mk (decide (threshold ≤ m + hs.length)) ((m + hs.length) % u32) p := by
  induction hs with
  | nil => intro m _; rfl
  | cons h hs ih =>
    intro m hall
    rw [List.foldl_cons, healthCheckEntry_pass h threshold m p h2
      (hall h (List.mem_cons_self _ _)),
      ih (m + 1) (fun g hg => hall g (List.mem_cons_of_mem _ hg)), List.length_cons]
    have : m + 1 + hs.length = m + (hs.length + 1) := by omega
    rw [this]

/-- C10: an entry whose probe failed in a sweep is unhealthy with counter 0;
after `k` further sweeps in which its probe succeeds, with a threshold `T`,
`1 <= T < 2^32`, it is healthy iff `k >= T`, and its counter is `k mod 2^32`. -/
theorem C10_promotion_needs_threshold (tlb : TestLoadBalancer) (h0 : ProviderStore)
    (hs : List ProviderStore) (i : Nat) (w0 : ProviderWrapper)
    (h1 : 1 ≤ tlb.HealthCheckPassesThreshold) (h2 : tlb.HealthCheckPassesThreshold < u32)
    (hw0 : tlb.providers[i]? = some w0) (hfail : (h0 w0.Provider).Check = false)
    (hpass : ∀ h ∈ hs, (h w0.Provider).Check = true) :
    (performHealthCheck h0 tlb).providers[i]? = some (ProviderWrapper.mk false 0 w0.Provider) ∧
    ∃ w, (sweeps hs (performHealthCheck h0 tlb)).providers[i]? = some w ∧
      w.Provider = w0.Provider ∧
      (w.Healthy = true ↔ tlb.HealthCheckPassesThreshold ≤ hs.length) ∧
      w.HealthCheckPassed = hs.length % u32 := by
  have hdem : (performHealthCheck h0 tlb).providers[i]?
      = some (ProviderWrapper.mk false 0 w0.Provider) := by
    rw [performHealthCheck_eq]
    simp only [List.getElem?_map, hw0, Option.map_some']
    rw [healthCheckEntry_fail h0 _ w0 hfail]
  have hT : (performHealthCheck h0 tlb).HealthCheckPassesThreshold
      = tlb.HealthCheckPassesThreshold := rfl
  refine ⟨hdem, ?_⟩
  have hstart : ProviderWrapper.mk false 0 w0.Provider
      = ProviderWrapper.mk (decide (tlb.HealthCheckPassesThreshold ≤ 0)) (0 % u32)
          w0.Provider := by
    have : ¬ tlb.HealthCheckPassesThreshold ≤ 0 := by omega
    simp [this]
  have hfold := foldl_healthCheckEntry_pass tlb.HealthCheckPassesThreshold w0.Provider h2
    hs 0 hpass
  rw [← hstart, Nat.zero_add] at hfold
  refine ⟨ProviderWrapper.mk (decide (tlb.HealthCheckPassesThreshold ≤ hs.length))
    (hs.length % u32) w0.Provider, ?_, ?_, ?_, ?_⟩
  · rw [(sweeps_getElem? hs (performHealthCheck h0 tlb) i).1, hdem, Option.map_some', hT, hfold]
  · rfl
  · simp
  · rfl

/-- Witness of C10: the demo's `p-5`, threshold 2, demoted by one sweep and
then probed successfully in two sweeps; and the same entry after 2^32
successful sweeps, when its counter has wrapped to 0 and it is still healthy. -/
theorem C10_promotion_needs_threshold_witness :
    ((performHealthCheck demoStoreFiveDown demoFull).providers[5]?
        = some (ProviderWrapper.mk false 0 (newEntry 5).Provider) ∧
      ∃ w, (sweeps [demoStore, demoStore]
          (performHealthCheck demoStoreFiveDown demoFull)).providers[5]? = some w ∧
        w.Provider = (newEntry 5).Provider ∧
        (w.Healthy = true ↔
          demoFull.HealthCheckPassesThreshold ≤ [demoStore, demoStore].length) ∧
        w.HealthCheckPassed = [demoStore, demoStore].length % u32) ∧
    (∃ w, (sweeps (List.replicate 4294967296 demoStore)
          (performHealthCheck demoStoreFiveDown demoFull)).providers[5]? = some w ∧
        w.Healthy = true ∧ w.HealthCheckPassed = 0) := by
  refine ⟨C10_promotion_needs_threshold demoFull demoStoreFiveDown [demoStore, demoStore] 5
    (newEntry 5) (by decide) (by decide) (by decide) (by decide) (by decide), ?_⟩
  obtain ⟨w, hw, _, hh, hc⟩ :=
    (C10_promotion_needs_threshold demoFull demoStoreFiveDown
      (List.replicate 4294967296 demoStore) 5 (newEntry 5) (by decide) (by decide) (by decide)
      (by decide) (fun h hh => by rw [List.eq_of_mem_replicate hh]; rfl)).2
  rw [List.length_replicate] at hh hc
  exact ⟨w, hw, hh.mpr (by decide), by rw [hc]; decide⟩

theorem withCursor_self (tlb : TestLoadBalancer) : withCursor tlb tlb.currentProvider = tlb := rfl

theorem nextProviderLoop_frame (fuel : Nat) :
    ∀ (count : Nat) (tlb : TestLoadBalancer),
      ∃ c, (nextProviderLoop fuel count tlb).2.1 = withCursor tlb c := by
  induction fuel with
  | zero => intro count tlb; exact ⟨tlb.currentProvider, rfl⟩
  | succ f ih =>
    intro count tlb
    rw [nextProviderLoop_succ]
    cases hq : tlb.providers[scanStart tlb]? with
    | none => exact ⟨_, rfl⟩
    | some prv =>
      dsimp only
      by_cases hh : prv.Healthy = true
      · rw [if_pos hh]
        exact ⟨_, rfl⟩
      · rw [if_neg hh]
        obtain ⟨c, hc⟩ := ih (count + 1) (withCursor tlb ((scanStart tlb + 1) % u32))
        exact ⟨c, by rw [hc, withCursor_withCursor]⟩

theorem nextProvider_frame (tlb : TestLoadBalancer) :
    ∃ c, (nextProvider tlb).2 = withCursor tlb c := by
  unfold nextProvider nextProviderCount
  split
  · exact ⟨tlb.currentProvider, rfl⟩
  · exact nextProviderLoop_frame _ _ _

theorem Get_frame (h : ProviderStore) (tlb : TestLoadBalancer) :
    ∃ c, (Get h tlb).2 = withCursor tlb c := by
  obtain ⟨c, hc⟩ := nextProvider_frame tlb
  refine ⟨c, ?_⟩
  rw [← hc]
  unfold Get
  generalize nextProvider tlb = r
  obtain ⟨o, t⟩ := r
  cases o with
  | ok p =>
    simp only
    generalize (h p).Get = g
    obtain ⟨s, e⟩ := g
    cases e <;> rfl
  | err e => rfl
  | indexOutOfRange => rfl

theorem unregisterLoop_cases (h : ProviderStore) (providerID : String) (tlb : TestLoadBalancer)
    (fuel : Nat) :
    ∀ i, unregisterLoop h providerID tlb fuel i = (some (LBError.notFound providerID), tlb) ∨
      ∃ i0, i0 < tlb.providers.length ∧
        unregisterLoop h providerID tlb fuel i = (none, removeAt tlb i0) := by
  induction fuel with
  | zero => intro i; exact Or.inl rfl
  | succ f ih =>
    intro i
    cases hv : tlb.providers[i]? with
    | none => left; rw [unregisterLoop, hv]
    | some v =>
      rw [unregisterLoop_succ h providerID tlb f i v hv]
      split
      · right
        refine ⟨i, ?_, rfl⟩
        by_contra hcon
        rw [List.getElem?_eq_none (by omega)] at hv
        cases hv
      · exact ih (i + 1)

theorem wellFormed_removeAt (tlb : TestLoadBalancer) (i : Nat) (hwf : WellFormed tlb)
    (hi : i < tlb.providers.length) : WellFormed (removeAt tlb i) := by
  obtain ⟨hf, hlt⟩ := hwf
  have hl := removeAt_length tlb i hi
  have hfull : (removeAt tlb i).fullness = tlb.fullness - 1 :=
    decU32_pos tlb.fullness (by omega)
  exact ⟨by rw [hfull]; omega, by omega⟩

/-- The state shape kept by every operation whose registrations fit in 32
bits: size counter equal to the length, length within the capacity. -/
theorem step_preserves_capacity (h : ProviderStore) (op : Op) (tlb : TestLoadBalancer)
    (hwf : WellFormed tlb) (hcap : tlb.providers.length ≤ tlb.maxProvidersAllowed)
    (hmax : tlb.maxProvidersAllowed < u32)
    (hfit : ∀ providers, op = Op.register providers →
      tlb.providers.length + providers.length < u32) :
    WellFormed (step h tlb op) ∧
      (step h tlb op).providers.length ≤ (step h tlb op).maxProvidersAllowed ∧
      (step h tlb op).maxProvidersAllowed = tlb.maxProvidersAllowed := by
  cases op with
  | register providers =>
    have hlt := hfit providers rfl
    have hmod : (tlb.providers.length + providers.length) % u32
        = tlb.providers.length + providers.length := Nat.mod_eq_of_lt hlt
    simp only [step]
    by_cases hc : tlb.providers.length + providers.length ≤ tlb.maxProvidersAllowed
    · rw [Register_ok tlb providers hwf hc hmax]
      refine ⟨⟨?_, ?_⟩, ?_, rfl⟩
      · simp only [List.length_append, List.length_map]
      · simp only [List.length_append, List.length_map]; omega
      · simp only [List.length_append, List.length_map]; omega
    · have hreg : Register tlb providers
          = (some (LBError.limitReached tlb.providers.length), tlb) := by
        unfold Register
        rw [hmod, if_pos (by omega)]
      rw [hreg]
      exact ⟨hwf, hcap, rfl⟩
  | unregister providerID =>
    simp only [step]
    rcases unregisterLoop_cases h providerID tlb tlb.providers.length 0 with hno | ⟨i0, hi0, hrm⟩
    · unfold Unregister
      rw [hno]
      exact ⟨hwf, hcap, rfl⟩
    · unfold Unregister
      rw [hrm]
      have hl := removeAt_length tlb i0 hi0
      refine ⟨wellFormed_removeAt tlb i0 hwf hi0, ?_, rfl⟩
      show (removeAt tlb i0).providers.length ≤ tlb.maxProvidersAllowed
      omega
  | get =>
    simp only [step]
    obtain ⟨c, hc⟩ := Get_frame h tlb
    rw [hc]
    exact ⟨hwf, hcap, rfl⟩
  | sweep =>
    simp only [step]
    rw [performHealthCheck_eq]
    refine ⟨⟨?_, ?_⟩, ?_, rfl⟩
    · simp only [List.length_map]; exact hwf.1
    · simp only [List.length_map]; exact hwf.2
    · simp only [List.length_map]; exact hcap

theorem reachable_register {cap T : Nat} {tlb : TestLoadBalancer}
    (hr : Reachable cap T tlb) (providers : List ProviderRef) :
    Reachable cap T (Register tlb providers).2 :=
  Reachable.step (fun _ => NewTestProvider "") (Op.register providers) hr

/-- C5 at the failing input: a fresh balancer of capacity 10 accepts one
`Register` call with 2^32 providers, because the sum of the lengths is cut to
32 bits before the comparison; the state reached holds 2^32 entries, above
the capacity, and its size counter still reads 0. -/
theorem C5_capacity_exceeded_by_truncation :
    Reachable 10 2 (Register (NewTestLoadBalancer 10 2) (List.replicate 4294967296 0)).2 ∧
    (Register (NewTestLoadBalancer 10 2) (List.replicate 4294967296 0)).1 = none ∧
    (Register (NewTestLoadBalancer 10 2) (List.replicate 4294967296 0)).2.providers.length
      = 4294967296 ∧
    (Register (NewTestLoadBalancer 10 2) (List.replicate 4294967296 0)).2.maxProvidersAllowed
      = 10 ∧
    (Register (NewTestLoadBalancer 10 2) (List.replicate 4294967296 0)).2.fullness = 0 :=
  ⟨reachable_register Reachable.init (List.replicate 4294967296 0),
    Register_replicate_fresh 10 2 4294967296 0 (by decide)⟩

theorem reachableFit_invariant {cap T : Nat} (hcap : cap < u32) {tlb : TestLoadBalancer}
    (hr : ReachableFit cap T tlb) :
    WellFormed tlb ∧ tlb.providers.length ≤ tlb.maxProvidersAllowed ∧
      tlb.maxProvidersAllowed = cap := by
  induction hr with
  | init => exact ⟨⟨rfl, by show 0 < u32; decide⟩, Nat.zero_le _, rfl⟩
  | step h op _ hfit ih =>
    obtain ⟨hwf, hle, hmax⟩ := ih
    obtain ⟨a, b, c⟩ := step_preserves_capacity h op _ hwf hle (by rw [hmax]; exact hcap) hfit
    exact ⟨a, b, by rw [c, hmax]⟩

theorem getMany_frame (h : ProviderStore) (k : Nat) :
    ∀ tlb : TestLoadBalancer, ∃ c, (getMany h k tlb).2 = withCursor tlb c := by
  induction k with
  | zero => intro tlb; exact ⟨tlb.currentProvider, rfl⟩
  | succ k ih =>
    intro tlb
    obtain ⟨c1, hc1⟩ := Get_frame h tlb
    obtain ⟨c2, hc2⟩ := ih (Get h tlb).2
    refine ⟨c2, ?_⟩
    rw [getMany]
    show (getMany h k (Get h tlb).2).2 = _
    rw [hc2, hc1, withCursor_withCursor]

theorem nextProvider_ok (tlb : TestLoadBalancer) (hwf : WellFormed tlb) (p : ProviderRef)
    (t : TestLoadBalancer) (hnp : nextProvider tlb = (Outcome.ok p, t)) :
    ∃ (j : Nat) (v : ProviderWrapper), tlb.providers[j]? = some v ∧ v.Healthy = true ∧
      v.Provider = p ∧ t = withCursor tlb (j + 1) := by
  unfold nextProvider at hnp
  rcases nextProviderCount_cases tlb hwf with ⟨_, heq⟩ | ⟨_, _, h1, _⟩ |
    ⟨_, j, k, v, _, _, hv, hh, heq⟩
  · rw [heq] at hnp; cases hnp
  · rw [h1] at hnp; cases hnp
  · rw [heq] at hnp
    simp only [Prod.mk.injEq, Outcome.ok.injEq] at hnp
    exact ⟨j, v, hv, hh, hnp.1, hnp.2.symm⟩

theorem healthCheckEntry_provider (h : ProviderStore) (threshold : Nat) (p : ProviderWrapper) :
    (healthCheckEntry h threshold p).Provider = p.Provider := by
  unfold healthCheckEntry
  split
  · rfl
  · dsimp only
    split <;> rfl

theorem performHealthCheck_unhealthy_of_fail (h0 : ProviderStore) (tlb : TestLoadBalancer)
    (v : ProviderWrapper) (hv : v ∈ (performHealthCheck h0 tlb).providers)
    (hfail : (h0 v.Provider).Check = false) : v.Healthy = false := by
  rw [performHealthCheck_eq] at hv
  simp only [List.mem_map] at hv
  obtain ⟨u, _, rfl⟩ := hv
  rw [healthCheckEntry_provider] at hfail
  rw [healthCheckEntry_fail h0 _ u hfail]

theorem wellFormed_performHealthCheck (h : ProviderStore) (tlb : TestLoadBalancer)
    (hwf : WellFormed tlb) : WellFormed (performHealthCheck h tlb) := by
  rw [performHealthCheck_eq]
  exact ⟨by simp only [List.length_map]; exact hwf.1, by simp only [List.length_map]; exact hwf.2⟩

/-- C11: after a sweep in which the probe of the provider of entry `i` fails,
that entry is unhealthy; `Get` calls only move the cursor, and from every
cursor value the scan selects a healthy entry other than entry `i`, of another
provider, namely the first healthy entry in rotation order; in any state the
scan does not select an entry whose `Healthy` flag is false. -/
theorem C11_demoted_entry_not_selected (tlb : TestLoadBalancer) (h0 : ProviderStore) (i : Nat)
    (w : ProviderWrapper) (hwf : WellFormed tlb) (hw : tlb.providers[i]? = some w)
    (hfail : (h0 w.Provider).Check = false) :
    (performHealthCheck h0 tlb).providers[i]? = some (ProviderWrapper.mk false 0 w.Provider) ∧
    (∀ (h : ProviderStore) (k : Nat), ∃ c,
        (getMany h k (performHealthCheck h0 tlb)).2 = withCursor (performHealthCheck h0 tlb) c) ∧
    (∀ (c : Nat) (p : ProviderRef) (t : TestLoadBalancer),
        nextProvider (withCursor (performHealthCheck h0 tlb) c) = (Outcome.ok p, t) →
        p ≠ w.Provider ∧
        ∃ (j : Nat) (v : ProviderWrapper), j ≠ i ∧
          (performHealthCheck h0 tlb).providers[j]? = some v ∧ v.Healthy = true ∧
          v.Provider = p ∧ t = withCursor (performHealthCheck h0 tlb) (j + 1)) ∧
    (∀ c : Nat, (∃ j, healthyAt (performHealthCheck h0 tlb).providers j = true) →
        SelectsFirstHealthyFrom
          (if c < (performHealthCheck h0 tlb).providers.length then c else 0)
          (withCursor (performHealthCheck h0 tlb) c)) ∧
    (∀ (s : TestLoadBalancer) (j : Nat) (v : ProviderWrapper), WellFormed s →
        s.providers[j]? = some v → v.Healthy = false →
        ∀ (p : ProviderRef) (t : TestLoadBalancer),
          nextProvider s = (Outcome.ok p, t) → t ≠ withCursor s (j + 1)) := by
  have hswf := wellFormed_performHealthCheck h0 tlb hwf
  have hdem : (performHealthCheck h0 tlb).providers[i]?
      = some (ProviderWrapper.mk false 0 w.Provider) := by
    rw [performHealthCheck_eq]
    simp only [List.getElem?_map, hw, Option.map_some']
    rw [healthCheckEntry_fail h0 _ w hfail]
  refine ⟨hdem, fun h k => getMany_frame h k _, ?_, ?_, ?_⟩
  rotate_left 2
  · intro s j v hs hv hun p t hnp ht
    obtain ⟨j2, v2, hv2, hh2, _, ht2⟩ := nextProvider_ok s hs p t hnp
    rw [ht] at ht2
    have hjj : j + 1 = j2 + 1 := withCursor_inj s _ _ ht2
    have hj : j = j2 := by omega
    rw [← hj, hv] at hv2
    cases hv2
    rw [hun] at hh2
    cases hh2
  · intro c p t hnp
    obtain ⟨j, v, hv, hh, hp, ht⟩ :=
      nextProvider_ok (withCursor (performHealthCheck h0 tlb) c)
        (wellFormed_withCursor _ c hswf) p t hnp
    rw [withCursor_providers] at hv
    rw [withCursor_withCursor] at ht
    have hne : p ≠ w.Provider := by
      intro heq
      have := performHealthCheck_unhealthy_of_fail h0 tlb v (List.getElem?_mem hv)
        (by rw [hp, heq]; exact hfail)
      rw [this] at hh
      cases hh
    refine ⟨hne, j, v, ?_, hv, hh, hp, ht⟩
    intro hji
    rw [hji, hdem] at hv
    cases hv
    cases hh
  · intro c hex
    have := nextProviderCount_selects (withCursor (performHealthCheck h0 tlb) c)
      (wellFormed_withCursor _ c hswf) hex
    rw [scanStart_eq _ (wellFormed_withCursor _ c hswf)] at this
    exact this

set_option maxRecDepth 100000 in
/-- Witness of C11: in the demo the sweep after `p-5` was disabled demotes the
entry of `p-5` (index 3), and the next nine calls return
`p-2, p-4, p-0, p-1, p-3, p-6, p-7, p-8, p-9`. -/
theorem C11_demoted_entry_not_selected_witness :
    demoFiveDemoted.providers[3]? = some (ProviderWrapper.mk false 0 5) ∧
    (∀ (c : Nat) (p : ProviderRef) (t : TestLoadBalancer),
        nextProvider (withCursor demoFiveDemoted c) = (Outcome.ok p, t) → p ≠ 5) ∧
    (getMany demoStoreFiveDown 9 demoFiveDemoted).1
      = [some "p-2", some "p-4", some "p-0", some "p-1", some "p-3", some "p-6", some "p-7",
          some "p-8", some "p-9"] :=
  ⟨(C11_demoted_entry_not_selected demoAfterThirdRotation demoStoreFiveDown 3
      (ProviderWrapper.mk true 0 5) ⟨by decide, by decide⟩ (by decide) (by decide)).1,
    fun c p t hnp =>
      ((C11_demoted_entry_not_selected demoAfterThirdRotation demoStoreFiveDown 3
        (ProviderWrapper.mk true 0 5) ⟨by decide, by decide⟩ (by decide) (by decide)).2.2.1
        c p t hnp).1,
    by decide⟩

theorem cyc_index (n j b : Nat) (hj : j < n) (hb : b < n) (hne : b ≠ j) :
    ∃ k, k < n - 1 ∧ ((j + 1) % n + k) % n = b := by
  by_cases hlast : j + 1 < n
  · rw [Nat.mod_eq_of_lt hlast]
    by_cases hbj : j < b
    · exact ⟨b - j - 1, by omega, by
        have : j + 1 + (b - j - 1) = b := by omega
        rw [this, Nat.mod_eq_of_lt hb]⟩
    · exact ⟨b + n - j - 1, by omega, by
        have : j + 1 + (b + n - j - 1) = b + n := by omega
        rw [this, Nat.add_mod_right, Nat.mod_eq_of_lt hb]⟩
  · have hn : j + 1 = n := by omega
    rw [hn, Nat.mod_self]
    exact ⟨b, by omega, by rw [Nat.zero_add]; exact Nat.mod_eq_of_lt hb⟩

theorem cyc_last (n j k : Nat) (hj : j < n) (hk : k < n) (h : ((j + 1) % n + k) % n = j) :
    k = n - 1 := by
  by_cases hlast : j + 1 < n
  · rw [Nat.mod_eq_of_lt hlast] at h
    by_cases hsum : j + 1 + k < n
    · rw [Nat.mod_eq_of_lt hsum] at h
      omega
    · have hsplit : j + 1 + k = (j + 1 + k - n) + n := by omega
      rw [hsplit, Nat.add_mod_right, Nat.mod_eq_of_lt (by omega)] at h
      omega
  · have hn : j + 1 = n := by omega
    rw [hn, Nat.mod_self, Nat.zero_add, Nat.mod_eq_of_lt hk] at h
    omega

theorem scanStart_withCursor_succ (tlb : TestLoadBalancer) (hwf : WellFormed tlb) (j : Nat)
    (hj : j < tlb.providers.length) :
    scanStart (withCursor tlb (j + 1)) = (j + 1) % tlb.providers.length := by
  unfold scanStart
  simp only [withCursor_currentProvider, withCursor_fullness, hwf.1]
  split
  · have : j + 1 = tlb.providers.length := by omega
    rw [this, Nat.mod_self]
  · rw [Nat.mod_eq_of_lt (by omega)]

theorem nextProvider_two_distinct (tlb : TestLoadBalancer) (hwf : WellFormed tlb)
    (htwo : ∃ a b, a ≠ b ∧ healthyAt tlb.providers a = true ∧ healthyAt tlb.providers b = true) :
    ∃ (j1 j2 : Nat) (w1 w2 : ProviderWrapper), j1 ≠ j2 ∧
      tlb.providers[j1]? = some w1 ∧ w1.Healthy = true ∧
      tlb.providers[j2]? = some w2 ∧ w2.Healthy = true ∧
      nextProvider tlb = (Outcome.ok w1.Provider, withCursor tlb (j1 + 1)) ∧
      nextProvider (withCursor tlb (j1 + 1)) = (Outcome.ok w2.Provider, withCursor tlb (j2 + 1)) := by
  obtain ⟨a, b, hab, ha, hb⟩ := htwo
  have hpos : 0 < tlb.providers.length := by
    have := healthyAt_lt ha
    omega
  obtain ⟨k1, w1, _, _, hw1, hh1, heq1⟩ := nextProviderCount_selects tlb hwf ⟨a, ha⟩
  have hj1 : (scanStart tlb + k1) % tlb.providers.length < tlb.providers.length :=
    Nat.mod_lt _ hpos
  generalize (scanStart tlb + k1) % tlb.providers.length = j1 at hw1 heq1 hj1
  have hwf1 := wellFormed_withCursor tlb (j1 + 1) hwf
  obtain ⟨k2, w2, hk2, hmin2, hw2, hh2, heq2⟩ :=
    nextProviderCount_selects (withCursor tlb (j1 + 1)) hwf1 ⟨a, ha⟩
  rw [scanStart_withCursor_succ tlb hwf j1 hj1] at hmin2 hw2 heq2
  simp only [withCursor_providers, withCursor_withCursor] at hk2 hmin2 hw2 heq2
  refine ⟨j1, ((j1 + 1) % tlb.providers.length + k2) % tlb.providers.length, w1, w2,
    ?_, hw1, hh1, hw2, hh2, ?_, ?_⟩
  · intro hsame
    have hk2last := cyc_last tlb.providers.length j1 k2 hj1 hk2 hsame.symm
    obtain ⟨c, hc, hcj⟩ : ∃ c, healthyAt tlb.providers c = true ∧ c ≠ j1 := by
      by_cases haj : a = j1
      · exact ⟨b, hb, by omega⟩
      · exact ⟨a, ha, haj⟩
    obtain ⟨kc, hkc, hidx⟩ := cyc_index tlb.providers.length j1 c hj1 (healthyAt_lt hc) hcj
    have := hmin2 kc (by omega)
    rw [hidx, hc] at this
    cases this
  · unfold nextProvider; rw [heq1]
  · unfold nextProvider; rw [heq2]

/-- C12: in a state with `fullness = len(providers) < 2^32` and at least two
healthy entries, two consecutive scans (the state part of two consecutive `Get`
calls) select entries at different indices; and when two consecutive scans
select the same index, that entry is the only healthy one. -/
theorem C12_consecutive_gets_differ (tlb : TestLoadBalancer) (hwf : WellFormed tlb) :
    (∀ h : ProviderStore, (Get h tlb).2 = (nextProvider tlb).2) ∧
    ((∃ a b, a ≠ b ∧ healthyAt tlb.providers a = true ∧ healthyAt tlb.providers b = true) →
      ∃ (j1 j2 : Nat) (w1 w2 : ProviderWrapper), j1 ≠ j2 ∧
        tlb.providers[j1]? = some w1 ∧ w1.Healthy = true ∧
        tlb.providers[j2]? = some w2 ∧ w2.Healthy = true ∧
        nextProvider tlb = (Outcome.ok w1.Provider, withCursor tlb (j1 + 1)) ∧
        nextProvider (withCursor tlb (j1 + 1))
          = (Outcome.ok w2.Provider, withCursor tlb (j2 + 1))) ∧
    (∀ (j : Nat) (p q : ProviderRef),
        nextProvider tlb = (Outcome.ok p, withCursor tlb (j + 1)) →
        nextProvider (withCursor tlb (j + 1)) = (Outcome.ok q, withCursor tlb (j + 1)) →
        healthyAt tlb.providers j = true ∧
          ∀ b, healthyAt tlb.providers b = true → b = j) := by
  refine ⟨fun h => Get_state h tlb, nextProvider_two_distinct tlb hwf, ?_⟩
  intro j p q h1 h2
  obtain ⟨j', v, hv, hh, _, ht⟩ := nextProvider_ok tlb hwf p _ h1
  have hjj : j = j' := by
    have := withCursor_inj tlb _ _ ht
    omega
  subst hjj
  have hhj : healthyAt tlb.providers j = true := healthyAt_iff.mpr ⟨v, hv, hh⟩
  refine ⟨hhj, ?_⟩
  intro b hb
  by_contra hbj
  obtain ⟨j1, j2, w1, w2, hne, _, _, _, _, e1, e2⟩ :=
    nextProvider_two_distinct tlb hwf ⟨b, j, hbj, hb, hhj⟩
  rw [h1] at e1
  have hj1 : j = j1 := by
    have := withCursor_inj tlb _ _ (congrArg Prod.snd e1)
    omega
  subst hj1
  rw [h2] at e2
  have hj2 : j = j2 := by
    have := withCursor_inj tlb _ _ (congrArg Prod.snd e2)
    omega
  exact hne hj2

/-- Witness of C12: in the demo after the removal of `p-2` and `p-4` the next
two scans select indices 0 and 1. -/
theorem C12_consecutive_gets_differ_witness :
    ∃ (j1 j2 : Nat) (w1 w2 : ProviderWrapper), j1 ≠ j2 ∧
      demoAfterRemoval.providers[j1]? = some w1 ∧ w1.Healthy = true ∧
      demoAfterRemoval.providers[j2]? = some w2 ∧ w2.Healthy = true ∧
      nextProvider demoAfterRemoval
        = (Outcome.ok w1.Provider, withCursor demoAfterRemoval (j1 + 1)) ∧
      nextProvider (withCursor demoAfterRemoval (j1 + 1))
        = (Outcome.ok w2.Provider, withCursor demoAfterRemoval (j2 + 1)) :=
  (C12_consecutive_gets_differ demoAfterRemoval ⟨by decide, by decide⟩).2.1
    ⟨0, 1, by decide, by decide, by decide⟩

theorem GetLogged_eq_Get (h : ProviderStore) (tlb : TestLoadBalancer) :
    ((GetLogged h tlb).1, (GetLogged h tlb).2.1) = Get h tlb := by
  unfold GetLogged Get
  generalize nextProvider tlb = r
  obtain ⟨o, t⟩ := r
  cases o with
  | ok p =>
    simp only
    generalize (h p).Get = g
    obtain ⟨s, e⟩ := g
    cases e <;> rfl
  | err e => rfl
  | indexOutOfRange => rfl

/-- C13: when the scan selects provider `p` and `p` is disabled, `Get` returns
the text "Provider error: provider not enabled", different from both
load-balancer error texts, together with the state left by that one scan; the
only provider whose `Get` is called is `p`, and the cursor is one past the
selected healthy entry. -/
theorem C13_provider_error_no_retry (h : ProviderStore) (tlb : TestLoadBalancer)
    (p : ProviderRef) (t : TestLoadBalancer)
    (hnp : nextProvider tlb = (Outcome.ok p, t)) (hdis : (h p).enabled = false) :
    Get h tlb = (some "Provider error: provider not enabled\r\n", t) ∧
    (Get h tlb).1 ≠ some ("LoadBanalcer error: " ++ LBError.noProvidersAdded.msg ++ "\r\n") ∧
    (Get h tlb).1 ≠ some ("LoadBanalcer error: " ++ LBError.noHealthyProviders.msg ++ "\r\n") ∧
    (GetLogged h tlb).2.2 = [p] ∧
    (∀ h2 : ProviderStore, h2 p = h p → Get h2 tlb = Get h tlb) ∧
    (WellFormed tlb →
      ∃ (j : Nat) (v : ProviderWrapper), tlb.providers[j]? = some v ∧ v.Healthy = true ∧
        v.Provider = p ∧ (Get h tlb).2 = withCursor tlb (j + 1)) := by
  have hget : Get h tlb = (some "Provider error: provider not enabled\r\n", t) := by
    unfold Get
    rw [hnp]
    simp only [TestProvider.Get, hdis, Bool.not_false, if_true]
    rfl
  refine ⟨hget, ?_, ?_, ?_, ?_, ?_⟩
  · rw [hget]
    show some "Provider error: provider not enabled\r\n"
      ≠ some ("LoadBanalcer error: " ++ LBError.noProvidersAdded.msg ++ "\r\n")
    decide
  · rw [hget]
    show some "Provider error: provider not enabled\r\n"
      ≠ some ("LoadBanalcer error: " ++ LBError.noHealthyProviders.msg ++ "\r\n")
    decide
  · unfold GetLogged
    rw [hnp]
    simp only [TestProvider.Get, hdis, Bool.not_false, if_true]
  · intro h2 h2p
    unfold Get
    rw [hnp]
    simp only [h2p]
  · intro hwf
    obtain ⟨j, v, hv, hh, hp, ht⟩ := nextProvider_ok tlb hwf p t hnp
    exact ⟨j, v, hv, hh, hp, by rw [hget]; exact ht⟩

/-- Witness of C13: in the demo with `p-5` due next and just disabled (no sweep
yet), `Get` returns the provider error and moves the cursor to 6. -/
theorem C13_provider_error_no_retry_witness :
    Get demoStoreFiveDown demoFiveNext
      = (some "Provider error: provider not enabled\r\n", withCursor demoFiveNext 6) ∧
    (GetLogged demoStoreFiveDown demoFiveNext).2.2 = [5] :=
  ⟨(C13_provider_error_no_retry demoStoreFiveDown demoFiveNext 5 (withCursor demoFiveNext 6)
      (by decide) (by decide)).1,
    (C13_provider_error_no_retry demoStoreFiveDown demoFiveNext 5 (withCursor demoFiveNext 6)
      (by decide) (by decide)).2.2.2.1⟩

theorem Register_cursor (tlb : TestLoadBalancer) (providers : List ProviderRef) :
    (Register tlb providers).2.currentProvider = tlb.currentProvider := by
  unfold Register
  split <;> rfl

theorem Unregister_cursor (h : ProviderStore) (tlb : TestLoadBalancer) (providerID : String) :
    (Unregister h tlb providerID).2.currentProvider = tlb.currentProvider := by
  unfold Unregister
  rcases unregisterLoop_cases h providerID tlb tlb.providers.length 0 with hno | ⟨i0, _, hrm⟩
  · rw [hno]
  · rw [hrm]; rfl

theorem getMany_run (h : ProviderStore) (k : Nat) :
    ∀ tlb : TestLoadBalancer, WellFormed tlb →
      tlb.currentProvider + k ≤ tlb.providers.length →
      (∀ j, j < k → ∃ w, tlb.providers[tlb.currentProvider + j]? = some w ∧
        w.Healthy = true ∧ (h w.Provider).enabled = true) →
      (getMany h k tlb).1 =
          (List.range k).map (fun j =>
            (tlb.providers[tlb.currentProvider + j]?).map (fun w => (h w.Provider).Id)) ∧
        (getMany h k tlb).2 = withCursor tlb (tlb.currentProvider + k) := by
  induction k with
  | zero =>
    intro tlb _ _ _
    exact ⟨rfl, rfl⟩
  | succ k ih =>
    intro tlb hwf hle hall
    have hc : tlb.currentProvider < tlb.providers.length := by omega
    have hs : scanStart tlb = tlb.currentProvider := by
      rw [scanStart_eq tlb hwf, if_pos hc]
    obtain ⟨w, hw, hh, he⟩ := hall 0 (Nat.succ_pos k)
    rw [Nat.add_zero] at hw
    have hget := Get_healthy h tlb w hwf (by rw [hs]; exact hw) hh he
    rw [hs] at hget
    obtain ⟨i1, i2⟩ := ih (withCursor tlb (tlb.currentProvider + 1))
      (wellFormed_withCursor _ _ hwf)
      (by simp only [withCursor_currentProvider, withCursor_providers]; omega)
      (by
        intro j hj
        simp only [withCursor_currentProvider, withCursor_providers]
        have := hall (j + 1) (by omega)
        rwa [show tlb.currentProvider + (j + 1) = tlb.currentProvider + 1 + j by omega] at this)
    simp only [withCursor_currentProvider, withCursor_providers, withCursor_withCursor] at i1 i2
    rw [getMany, hget]
    refine ⟨?_, ?_⟩
    · show some (h w.Provider).Id :: (getMany h k (withCursor tlb (tlb.currentProvider + 1))).1 = _
      rw [i1, List.range_succ_eq_map, List.map_cons, List.map_map]
      simp only [Nat.add_zero, hw, Option.map_some', List.cons.injEq, true_and]
      apply List.map_congr_left
      intro j _
      simp only [Function.comp, Nat.succ_eq_add_one]
      rw [show tlb.currentProvider + (j + 1) = tlb.currentProvider + 1 + j by omega]
    · show (getMany h k (withCursor tlb (tlb.currentProvider + 1))).2 = _
      rw [i2]
      rw [show tlb.currentProvider + 1 + k = tlb.currentProvider + (k + 1) by omega]

theorem registerAll_cursor (batches : List (List ProviderRef)) :
    ∀ tlb : TestLoadBalancer, (registerAll tlb batches).currentProvider = tlb.currentProvider := by
  induction batches with
  | nil => intro tlb; rfl
  | cons b bs ih =>
    intro tlb
    rw [registerAll, ih, Register_cursor]

/-- C14: `Register` and `Unregister` leave the cursor as it is, whatever they
return; so when the cursor equals the length `n` and `k` enabled providers are
then registered (within the capacity), the next `k` `Get` calls return the new
providers in registration order, and the cursor then equals the new length, so
that the following scan starts at entry 0. -/
theorem C14_register_unregister_keep_cursor :
    (∀ (tlb : TestLoadBalancer) (providers : List ProviderRef),
        (Register tlb providers).2.currentProvider = tlb.currentProvider) ∧
    (∀ (h : ProviderStore) (tlb : TestLoadBalancer) (providerID : String),
        (Unregister h tlb providerID).2.currentProvider = tlb.currentProvider) ∧
    (∀ (h : ProviderStore) (tlb : TestLoadBalancer) (batches : List (List ProviderRef)),
        WellFormed tlb → tlb.maxProvidersAllowed < u32 →
        tlb.currentProvider = tlb.providers.length →
        tlb.providers.length + batches.flatten.length ≤ tlb.maxProvidersAllowed →
        (∀ p ∈ batches.flatten, (h p).enabled = true) →
        (getMany h batches.flatten.length (registerAll tlb batches)).1
            = batches.flatten.map (fun p => some (h p).Id) ∧
          (getMany h batches.flatten.length (registerAll tlb batches)).2.currentProvider
            = (registerAll tlb batches).providers.length ∧
          scanStart (getMany h batches.flatten.length (registerAll tlb batches)).2 = 0) := by
  refine ⟨Register_cursor, Unregister_cursor, ?_⟩
  intro h tlb batches hwf hmax hcur hcap hen
  have hreg := registerAll_fresh batches tlb hwf hmax hcap
  have hlt := hwf.2
  generalize hps : batches.flatten = ps at hreg hcap hen
  generalize hs : registerAll tlb batches = s at hreg
  have hsp : s.providers = tlb.providers ++ ps.map newEntry := by rw [hreg]
  have hsf : s.fullness = tlb.providers.length + ps.length := by rw [hreg]
  have hsc : s.currentProvider = tlb.providers.length := by rw [hreg]; exact hcur
  have hslen : s.providers.length = tlb.providers.length + ps.length := by
    rw [hsp, List.length_append, List.length_map]
  have hswf : WellFormed s := ⟨by rw [hsf, hslen], by rw [hslen]; omega⟩
  have hentry : ∀ j, j < ps.length →
      s.providers[s.currentProvider + j]? = some (newEntry ps[j]!) := by
    intro j hj
    rw [hsc, hsp, List.getElem?_append_right (Nat.le_add_right _ _), Nat.add_sub_cancel_left,
      List.getElem?_map, List.getElem?_eq_getElem hj, getElem!_pos ps j hj]
    rfl
  obtain ⟨r1, r2⟩ := getMany_run h ps.length s hswf (by rw [hsc, hslen])
    (by
      intro j hj
      refine ⟨newEntry ps[j]!, hentry j hj, rfl, ?_⟩
      apply hen
      rw [getElem!_pos ps j hj]
      exact List.getElem_mem hj)
  refine ⟨?_, ?_, ?_⟩
  · rw [r1]
    apply List.ext_getElem?
    intro j
    by_cases hj : j < ps.length
    · rw [List.getElem?_map, List.getElem?_map, List.getElem?_range hj]
      simp only [Option.map_some']
      rw [hentry j hj, List.getElem?_eq_getElem hj, getElem!_pos ps j hj]
      rfl
    · rw [List.getElem?_eq_none (by simpa using hj), List.getElem?_eq_none (by simpa using hj)]
  · rw [r2, withCursor_currentProvider, hsc, hslen]
  · rw [r2]
    unfold scanStart
    rw [withCursor_currentProvider, withCursor_fullness, hsc, hsf, if_pos (Nat.le_refl _)]

set_option maxRecDepth 100000 in
/-- Witness of C14: in the demo, after the second rotation the cursor is 8 with
eight entries; `p-2` and `p-4` are registered again and the next ten calls
return `p-2, p-4, p-0, p-1, p-3, p-5, p-6, p-7, p-8, p-9`. -/
theorem C14_register_unregister_keep_cursor_witness :
    ((getMany demoStore [[2], [4]].flatten.length
          (registerAll demoAfterSecondRotation [[2], [4]])).1
        = [[2], [4]].flatten.map (fun p => some (demoStore p).Id) ∧
      (getMany demoStore [[2], [4]].flatten.length
          (registerAll demoAfterSecondRotation [[2], [4]])).2.currentProvider
        = (registerAll demoAfterSecondRotation [[2], [4]]).providers.length ∧
      scanStart (getMany demoStore [[2], [4]].flatten.length
          (registerAll demoAfterSecondRotation [[2], [4]])).2 = 0) ∧
    (getMany demoStore 10 demoReRegistered).1
      = [some "p-2", some "p-4", some "p-0", some "p-1", some "p-3", some "p-5", some "p-6",
          some "p-7", some "p-8", some "p-9"] :=
  ⟨C14_register_unregister_keep_cursor.2.2 demoStore demoAfterSecondRotation [[2], [4]]
      ⟨by decide, by decide⟩ (by decide) (by decide) (by decide) (fun _ _ => rfl),
    by decide⟩

/-- C16: one sweep replaces every entry by the result of the loop body on that
entry alone: after a failed probe the counter is 0 and the entry unhealthy;
after a successful probe the counter is incremented (as a `uint32`), the entry
is healthy when the new counter reaches the threshold and keeps its flag
otherwise.  Number, order and providers of the entries, the cursor, the size
counter, the capacity and the threshold are unchanged. -/
theorem C16_sweep_per_entry (h : ProviderStore) (tlb : TestLoadBalancer) :
    (performHealthCheck h tlb).providers
        = tlb.providers.map (healthCheckEntry h tlb.HealthCheckPassesThreshold) ∧
    (∀ (i : Nat) (w : ProviderWrapper), tlb.providers[i]? = some w →
      ∃ v, (performHealthCheck h tlb).providers[i]? = some v ∧
        v.Provider = w.Provider ∧
        ((h w.Provider).Check = false → v.HealthCheckPassed = 0 ∧ v.Healthy = false) ∧
        ((h w.Provider).Check = true →
          v.HealthCheckPassed = (w.HealthCheckPassed + 1) % u32 ∧
          (w.HealthCheckPassed + 1 < u32 → v.HealthCheckPassed = w.HealthCheckPassed + 1) ∧
          (v.HealthCheckPassed ≥ tlb.HealthCheckPassesThreshold → v.Healthy = true) ∧
          (¬ v.HealthCheckPassed ≥ tlb.HealthCheckPassesThreshold → v.Healthy = w.Healthy))) ∧
    (performHealthCheck h tlb).providers.length = tlb.providers.length ∧
    (performHealthCheck h tlb).providers.map (fun w => w.Provider)
        = tlb.providers.map (fun w => w.Provider) ∧
    (performHealthCheck h tlb).currentProvider = tlb.currentProvider ∧
    (performHealthCheck h tlb).fullness = tlb.fullness ∧
    (performHealthCheck h tlb).maxProvidersAllowed = tlb.maxProvidersAllowed ∧
    (performHealthCheck h tlb).HealthCheckPassesThreshold = tlb.HealthCheckPassesThreshold := by
  have hmap : (performHealthCheck h tlb).providers
      = tlb.providers.map (healthCheckEntry h tlb.HealthCheckPassesThreshold) := by
    rw [performHealthCheck_eq]
  refine ⟨hmap, ?_, ?_, ?_, rfl, rfl, rfl, rfl⟩
  · intro i w hw
    refine ⟨healthCheckEntry h tlb.HealthCheckPassesThreshold w, ?_,
      healthCheckEntry_provider h _ w, ?_, ?_⟩
    · rw [hmap, List.getElem?_map, hw]; rfl
    · intro hc
      rw [healthCheckEntry_fail h _ w hc]
      exact ⟨rfl, rfl⟩
    · intro hc
      unfold healthCheckEntry
      simp only [hc, Bool.not_true, Bool.false_eq_true, if_false]
      by_cases hge : (w.HealthCheckPassed + 1) % u32 ≥ tlb.HealthCheckPassesThreshold
      · rw [if_pos hge]
        exact ⟨rfl, fun hlt => Nat.mod_eq_of_lt hlt, fun _ => rfl, fun hn => absurd hge hn⟩
      · rw [if_neg hge]
        exact ⟨rfl, fun hlt => Nat.mod_eq_of_lt hlt, fun hn => absurd hn hge, fun _ => rfl⟩
  · rw [hmap, List.length_map]
  · rw [hmap, List.map_map]
    apply List.map_congr_left
    intro w _
    exact healthCheckEntry_provider h _ w

set_option maxRecDepth 100000 in
/-- Witness of C16: the sweep of the demo after `p-5` was disabled demotes the
entry of `p-5` and counts one success for its neighbour `p-6`. -/
theorem C16_sweep_per_entry_witness :
    (∃ v, demoFiveDemoted.providers[3]? = some v ∧ v.HealthCheckPassed = 0 ∧ v.Healthy = false) ∧
    demoFiveDemoted.providers[4]? = some (ProviderWrapper.mk true 1 6) :=
  ⟨by
      obtain ⟨v, hv, _, hf, _⟩ :=
        (C16_sweep_per_entry demoStoreFiveDown demoAfterThirdRotation).2.1 3
          (ProviderWrapper.mk true 0 5) (by decide)
      exact ⟨v, hv, hf (by decide)⟩,
    by decide⟩

theorem decU32_mod_pred (n : Nat) (hn : 0 < n) : decU32 (n % u32) = (n - 1) % u32 := by
  have hu : u32 = 4294967296 := rfl
  unfold decU32
  rw [hu]
  split <;> omega

theorem step_preserves_fullness_mod (h : ProviderStore) (op : Op) (tlb : TestLoadBalancer)
    (hinv : tlb.fullness = tlb.providers.length % u32) :
    (step h tlb op).fullness = (step h tlb op).providers.length % u32 := by
  cases op with
  | register providers =>
    simp only [step]
    unfold Register
    split
    · exact hinv
    · simp only [List.length_append, List.length_map]
      rw [hinv, ← Nat.add_mod]
  | unregister providerID =>
    simp only [step]
    unfold Unregister
    rcases unregisterLoop_cases h providerID tlb tlb.providers.length 0 with hno | ⟨i0, hi0, hrm⟩
    · rw [hno]; exact hinv
    · rw [hrm]
      have hl := removeAt_length tlb i0 hi0
      show decU32 tlb.fullness = (removeAt tlb i0).providers.length % u32
      rw [hinv, decU32_mod_pred _ (by omega)]
      congr 1
      omega
  | get =>
    simp only [step]
    obtain ⟨c, hc⟩ := Get_frame h tlb
    rw [hc]
    exact hinv
  | sweep =>
    simp only [step]
    rw [performHealthCheck_eq]
    simp only [List.length_map]
    exact hinv

theorem reachable_fullness_mod {cap T : Nat} {tlb : TestLoadBalancer}
    (hr : Reachable cap T tlb) : tlb.fullness = tlb.providers.length % u32 := by
  induction hr with
  | init => rfl
  | step h op _ ih => exact step_preserves_fullness_mod h op _ ih

theorem nextProviderLoop_inRange (fuel : Nat) :
    ∀ (count : Nat) (tlb : TestLoadBalancer), 0 < tlb.fullness →
      tlb.fullness ≤ tlb.providers.length →
      (nextProviderLoop fuel count tlb).1 ≠ Outcome.indexOutOfRange := by
  induction fuel with
  | zero =>
    intro count tlb _ _
    rw [nextProviderLoop]
    exact fun hc => by cases hc
  | succ f ih =>
    intro count tlb hpos hle
    have hs := scanStart_lt tlb hpos
    rw [nextProviderLoop_succ, List.getElem?_eq_getElem (show scanStart tlb < tlb.providers.length by omega)]
    dsimp only
    split
    · exact fun hc => by cases hc
    · exact ih (count + 1) _ hpos hle

theorem nextProvider_inRange (tlb : TestLoadBalancer)
    (hinv : tlb.fullness = tlb.providers.length % u32) :
    (nextProvider tlb).1 ≠ Outcome.indexOutOfRange := by
  unfold nextProvider nextProviderCount
  split
  · exact fun hc => by cases hc
  · rename_i hne
    exact nextProviderLoop_inRange _ 0 tlb (by omega)
      (by rw [hinv]; exact Nat.mod_le _ _)

theorem reachable_registerAll {cap T : Nat} (batches : List (List ProviderRef)) :
    ∀ {tlb : TestLoadBalancer}, Reachable cap T tlb → Reachable cap T (registerAll tlb batches) := by
  induction batches with
  | nil => intro tlb hr; exact hr
  | cons b bs ih => intro tlb hr; exact ih (reachable_register hr b)

theorem reachable_getMany {cap T : Nat} (h : ProviderStore) (k : Nat) :
    ∀ {tlb : TestLoadBalancer}, Reachable cap T tlb → Reachable cap T (getMany h k tlb).2 := by
  induction k with
  | zero => intro tlb hr; exact hr
  | succ k ih => intro tlb hr; exact ih (Reachable.step h Op.get hr)

theorem reachable_unregister {cap T : Nat} {tlb : TestLoadBalancer} (hr : Reachable cap T tlb)
    (h : ProviderStore) (providerID : String) :
    Reachable cap T (Unregister h tlb providerID).2 :=
  Reachable.step h (Op.unregister providerID) hr

theorem reachable_skewedState : Reachable 3 1 skewedState :=
  reachable_unregister (reachable_getMany demoStore 3
    (reachable_registerAll [[0], [1], [2]] Reachable.init)) demoStore "p-0"

/-- C17: in every state reachable from construction by `Register`,
`Unregister`, `Get` and health sweeps (with any arguments), `nextProvider`
never reads `tlb.providers` out of range, so `Get` returns a string; when the
size counter is not 0 the first index read is below `len(providers)`. -/
theorem C17_scan_reads_in_range (cap T : Nat) (tlb : TestLoadBalancer)
    (hr : Reachable cap T tlb) :
    (nextProvider tlb).1 ≠ Outcome.indexOutOfRange ∧
    (∀ h : ProviderStore, (Get h tlb).1 ≠ none) ∧
    (∀ c : Nat, (nextProvider (withCursor tlb c)).1 ≠ Outcome.indexOutOfRange) ∧
    (tlb.fullness ≠ 0 → scanStart tlb < tlb.providers.length) := by
  have hinv := reachable_fullness_mod hr
  have hnp := nextProvider_inRange tlb hinv
  refine ⟨hnp, ?_, fun c => nextProvider_inRange (withCursor tlb c) hinv, ?_⟩
  · intro h
    unfold Get
    generalize nextProvider tlb = r at hnp
    obtain ⟨o, t⟩ := r
    cases o with
    | ok p =>
      simp only
      generalize (h p).Get = g
      obtain ⟨s, e⟩ := g
      cases e <;> exact fun hc => by cases hc
    | err e => exact fun hc => by cases hc
    | indexOutOfRange => exact absurd rfl hnp
  · intro hne
    have := scanStart_lt tlb (by omega)
    have hle : tlb.fullness ≤ tlb.providers.length := by rw [hinv]; exact Nat.mod_le _ _
    omega

/-- Witness of C17: `skewedState`, where `Unregister` has shrunk the registry
to two entries below the cursor value 3. -/
theorem C17_scan_reads_in_range_witness :
    skewedState.providers.length < skewedState.currentProvider ∧
    (nextProvider skewedState).1 ≠ Outcome.indexOutOfRange ∧
    (skewedState.fullness ≠ 0 → scanStart skewedState < skewedState.providers.length) :=
  ⟨by decide, (C17_scan_reads_in_range 3 1 skewedState reachable_skewedState).1,
    (C17_scan_reads_in_range 3 1 skewedState reachable_skewedState).2.2.2⟩

theorem Unregister_ok_cases (h : ProviderStore) (tlb : TestLoadBalancer) (providerID : String)
    (hok : (Unregister h tlb providerID).1 = none) :
    ∃ i0, i0 < tlb.providers.length ∧ Unregister h tlb providerID = (none, removeAt tlb i0) := by
  unfold Unregister at hok ⊢
  rcases unregisterLoop_cases h providerID tlb tlb.providers.length 0 with hno | ⟨i0, hi0, hrm⟩
  · rw [hno] at hok; cases hok
  · exact ⟨i0, hi0, hrm⟩

/-- C18: in every reachable state the size counter `fullness` is
`len(providers)` modulo 2^32, hence equal to `len(providers)` whenever the
entry count fits in 32 bits; every operation keeps the equality as long as the
count still fits; a successful `Unregister` then decrements a positive counter;
and the emptiness test on `fullness` agrees with the emptiness of the slice. -/
theorem C18_fullness_tracks_length :
    (∀ (cap T : Nat) (tlb : TestLoadBalancer), Reachable cap T tlb →
        tlb.fullness = tlb.providers.length % u32 ∧
        (tlb.providers.length < u32 →
          tlb.fullness = tlb.providers.length ∧ (tlb.fullness = 0 ↔ tlb.providers = []))) ∧
    (∀ (h : ProviderStore) (op : Op) (tlb : TestLoadBalancer),
        tlb.fullness = tlb.providers.length → tlb.providers.length < u32 →
        (step h tlb op).providers.length < u32 →
        (step h tlb op).fullness = (step h tlb op).providers.length) ∧
    (∀ (cap T : Nat) (tlb : TestLoadBalancer) (h : ProviderStore) (providerID : String),
        Reachable cap T tlb → tlb.providers.length < u32 →
        (Unregister h tlb providerID).1 = none →
        0 < tlb.fullness ∧
        (Unregister h tlb providerID).2.fullness = tlb.fullness - 1 ∧
        (Unregister h tlb providerID).2.providers.length = tlb.providers.length - 1) := by
  refine ⟨?_, ?_, ?_⟩
  · intro cap T tlb hr
    have hinv := reachable_fullness_mod hr
    refine ⟨hinv, fun hlt => ?_⟩
    have hfl : tlb.fullness = tlb.providers.length := by
      rw [hinv, Nat.mod_eq_of_lt hlt]
    exact ⟨hfl, by rw [hfl, List.length_eq_zero]⟩
  · intro h op tlb hfl hlt hlt2
    have := step_preserves_fullness_mod h op tlb (by rw [hfl, Nat.mod_eq_of_lt hlt])
    rw [this, Nat.mod_eq_of_lt hlt2]
  · intro cap T tlb h providerID hr hlt hok
    have hinv := reachable_fullness_mod hr
    rw [Nat.mod_eq_of_lt hlt] at hinv
    obtain ⟨i0, hi0, hrm⟩ := Unregister_ok_cases h tlb providerID hok
    have hl := removeAt_length tlb i0 hi0
    have hpos : 0 < tlb.fullness := by omega
    rw [hrm]
    refine ⟨hpos, decU32_pos tlb.fullness hpos, ?_⟩
    show (removeAt tlb i0).providers.length = tlb.providers.length - 1
    omega

/-- Witness of C18: `skewedState`, reached by three registrations, three `Get`
calls and one removal, has size counter 2 and two entries. -/
theorem C18_fullness_tracks_length_witness :
    skewedState.fullness = skewedState.providers.length ∧
    (skewedState.fullness = 0 ↔ skewedState.providers = []) ∧
    skewedState.fullness = 2 :=
  ⟨((C18_fullness_tracks_length.1 3 1 skewedState reachable_skewedState).2 (by decide)).1,
    ((C18_fullness_tracks_length.1 3 1 skewedState reachable_skewedState).2 (by decide)).2,
    by decide⟩

theorem removeAt_getElem? (tlb : TestLoadBalancer) (i m : Nat) :
    (removeAt tlb i).providers[m]? = if m < i then tlb.providers[m]? else tlb.providers[m + 1]? := by
  show (tlb.providers.take i ++ tlb.providers.drop (i + 1))[m]? = _
  rw [← List.eraseIdx_eq_take_drop_succ, List.getElem?_eraseIdx]

/-- C19: with `n` entries, all healthy and enabled, and the cursor at `c`,
removing the entry at an index `i < c < n - 1` leaves the cursor at `c`; the
next `Get` returns the entry that was at index `c + 1`, the entry that was at
index `c` now sits at index `c - 1`, and the following calls return the old
entries `c + 1, ..., n - 1` until the cursor reaches the new length. -/
theorem C19_removal_shifts_rotation (h : ProviderStore) (tlb : TestLoadBalancer)
    (providerID : String) (i : Nat) (w : ProviderWrapper) (hwf : WellFormed tlb)
    (hall : ∀ v ∈ tlb.providers, v.Healthy = true ∧ (h v.Provider).enabled = true)
    (hic : i < tlb.currentProvider) (hcn : tlb.currentProvider + 1 < tlb.providers.length)
    (hw : tlb.providers[i]? = some w) (hid : (h w.Provider).Id = providerID)
    (hmin : ∀ (j : Nat) (v : ProviderWrapper), j < i → tlb.providers[j]? = some v →
      (h v.Provider).Id ≠ providerID) :
    (Unregister h tlb providerID).1 = none ∧
    (Unregister h tlb providerID).2.providers = tlb.providers.eraseIdx i ∧
    (Unregister h tlb providerID).2.currentProvider = tlb.currentProvider ∧
    (∃ v, tlb.providers[tlb.currentProvider + 1]? = some v ∧
      (Get h (Unregister h tlb providerID).2).1 = some (h v.Provider).Id ∧
      (Get h (Unregister h tlb providerID).2).2.currentProvider = tlb.currentProvider + 1) ∧
    (Unregister h tlb providerID).2.providers[tlb.currentProvider - 1]?
      = tlb.providers[tlb.currentProvider]? ∧
    (getMany h (tlb.providers.length - 1 - tlb.currentProvider)
        (Unregister h tlb providerID).2).1
      = (List.range (tlb.providers.length - 1 - tlb.currentProvider)).map (fun j =>
          (tlb.providers[tlb.currentProvider + 1 + j]?).map (fun v => (h v.Provider).Id)) ∧
    (getMany h (tlb.providers.length - 1 - tlb.currentProvider)
        (Unregister h tlb providerID).2).2.currentProvider
      = (Unregister h tlb providerID).2.providers.length := by
  have hilen : i < tlb.providers.length := by omega
  have hun : Unregister h tlb providerID = (none, removeAt tlb i) := by
    apply Unregister_found h tlb providerID i w hw
    · rw [fetchedId_enabled h w (hall w (List.getElem?_mem hw)).2]; exact hid
    · intro j v hj hjv
      rw [fetchedId_enabled h v (hall v (List.getElem?_mem hjv)).2]
      exact hmin j v hj hjv
  have hl := removeAt_length tlb i hilen
  have hrwf := wellFormed_removeAt tlb i hwf hilen
  have hrc : (removeAt tlb i).currentProvider = tlb.currentProvider := rfl
  have hshift : ∀ j, (removeAt tlb i).providers[tlb.currentProvider + j]?
      = tlb.providers[tlb.currentProvider + 1 + j]? := by
    intro j
    rw [removeAt_getElem?, if_neg (by omega)]
    congr 1
    omega
  have hrun : ∀ k, tlb.currentProvider + k ≤ (removeAt tlb i).providers.length →
      (getMany h k (removeAt tlb i)).1 =
          (List.range k).map (fun j =>
            (tlb.providers[tlb.currentProvider + 1 + j]?).map (fun v => (h v.Provider).Id)) ∧
        (getMany h k (removeAt tlb i)).2 = withCursor (removeAt tlb i) (tlb.currentProvider + k) := by
    intro k hk
    obtain ⟨r1, r2⟩ := getMany_run h k (removeAt tlb i) hrwf (by rw [hrc]; exact hk)
      (by
        intro j hj
        rw [hrc, hshift j]
        have hlt : tlb.currentProvider + 1 + j < tlb.providers.length := by omega
        exact ⟨_, List.getElem?_eq_getElem hlt, hall _ (List.getElem_mem hlt)⟩)
    rw [hrc] at r1 r2
    refine ⟨?_, r2⟩
    rw [r1]
    apply List.map_congr_left
    intro j _
    rw [hshift j]
  rw [hun]
  refine ⟨rfl, ?_, rfl, ?_, ?_, ?_, ?_⟩
  · show tlb.providers.take i ++ tlb.providers.drop (i + 1) = _
    rw [List.eraseIdx_eq_take_drop_succ]
  · have hlt : tlb.currentProvider + 1 < tlb.providers.length := hcn
    obtain ⟨r1, r2⟩ := hrun 1 (by omega)
    refine ⟨tlb.providers[tlb.currentProvider + 1], List.getElem?_eq_getElem hlt, ?_, ?_⟩
    · have : (getMany h 1 (removeAt tlb i)).1 = [(Get h (removeAt tlb i)).1] := rfl
      rw [this] at r1
      have hr1 : List.range 1 = [0] := rfl
      simp only [hr1, List.map_cons, List.map_nil, Nat.add_zero,
        List.getElem?_eq_getElem hlt, Option.map_some', List.cons.injEq, and_true] at r1
      exact r1
    · have : (getMany h 1 (removeAt tlb i)).2 = (Get h (removeAt tlb i)).2 := rfl
      rw [this] at r2
      show (Get h (removeAt tlb i)).2.currentProvider = _
      rw [r2]
      rfl
  · show (removeAt tlb i).providers[tlb.currentProvider - 1]? = _
    rw [removeAt_getElem?, if_neg (by omega)]
    congr 1
    omega
  · exact (hrun _ (by omega)).1
  · show (getMany h _ (removeAt tlb i)).2.currentProvider = (removeAt tlb i).providers.length
    rw [(hrun _ (by omega)).2, withCursor_currentProvider]
    omega

set_option maxRecDepth 100000 in
/-- Witness of C19: in the demo after five `Get` calls, removing `p-2` (index
2, cursor 5) makes the next call return `p-6`, not the due `p-5`. -/
theorem C19_removal_shifts_rotation_witness :
    (∃ v, demoFiveNext.providers[demoFiveNext.currentProvider + 1]? = some v ∧
      (Get demoStore (Unregister demoStore demoFiveNext "p-2").2).1
        = some (demoStore v.Provider).Id ∧
      (Get demoStore (Unregister demoStore demoFiveNext "p-2").2).2.currentProvider
        = demoFiveNext.currentProvider + 1) ∧
    (Get demoStore demoShifted).1 = some "p-6" ∧
    (Get demoStore demoFiveNext).1 = some "p-5" :=
  ⟨(C19_removal_shifts_rotation demoStore demoFiveNext "p-2" 2 (newEntry 2)
      ⟨by decide, by decide⟩ (by decide) (by decide) (by decide) (by decide) (by decide)
      (fun j v hj hjv =>
        (show ∀ j, j < 2 → ∀ v ∈ demoFiveNext.providers[j]?, (demoStore v.Provider).Id ≠ "p-2"
          by decide) j hj v hjv)).2.2.2.1,
    by decide, by decide⟩

theorem Register_error_reports_length (tlb : TestLoadBalancer) (providers : List ProviderRef)
    (e : LBError) (herr : (Register tlb providers).1 = some e) :
    e = LBError.limitReached tlb.providers.length := by
  unfold Register at herr
  split at herr
  · simp only [Option.some.injEq] at herr
    exact herr.symm
  · cases herr

/-- C20 at the failing input: with capacity 10 and five providers registered, a
`Register` call with six more providers is rejected and its error text reports
`Allowed: 5`, the current number of entries, not the limit 10. -/
theorem C20_error_reports_length :
    demoHalf.maxProvidersAllowed = 10 ∧ demoHalf.providers.length = 5 ∧
    (Register demoHalf [5, 6, 7, 8, 9, 10]).1 = some (LBError.limitReached 5) ∧
    (LBError.limitReached 5).msg = "LB Registration: providers limit reached. Allowed: 5" ∧
    (Register demoHalf [5, 6, 7, 8, 9, 10]).1
      ≠ some (LBError.limitReached demoHalf.maxProvidersAllowed) := by
  decide

theorem healthCheckEntryTraced_fst (h : ProviderStore) (threshold i : Nat) (p : ProviderWrapper) :
    (healthCheckEntryTraced h threshold i p).1 = healthCheckEntry h threshold p := by
  unfold healthCheckEntryTraced healthCheckEntry
  split
  · rfl
  · dsimp only
    split <;> rfl

theorem healthCheckLoopTraced_fst (h : ProviderStore) (threshold fuel : Nat) :
    ∀ (i : Nat) (ps : List ProviderWrapper),
      (healthCheckLoopTraced h threshold fuel i ps).1 = healthCheckLoop h threshold fuel i ps := by
  induction fuel with
  | zero => intro i ps; rfl
  | succ f ih =>
    intro i ps
    rw [healthCheckLoopTraced, healthCheckLoop]
    cases ps[i]? with
    | none => rfl
    | some p =>
      dsimp only
      rw [ih, healthCheckEntryTraced_fst]

theorem performHealthCheckTraced_fst (h : ProviderStore) (tlb : TestLoadBalancer) :
    (performHealthCheckTraced h tlb).1 = performHealthCheck h tlb := by
  unfold performHealthCheckTraced performHealthCheck
  rw [healthCheckLoopTraced_fst]

theorem nextProviderLoopTraced_fst (fuel : Nat) :
    ∀ (count : Nat) (tlb : TestLoadBalancer),
      (nextProviderLoopTraced fuel count tlb).1 = nextProviderLoop fuel count tlb := by
  induction fuel with
  | zero => intro count tlb; rfl
  | succ f ih =>
    intro count tlb
    rw [nextProviderLoopTraced, nextProviderLoop]
    split
    · rfl
    · split
      · rfl
      · exact ih _ _

theorem nextProviderTraced_fst (tlb : TestLoadBalancer) :
    (nextProviderTraced tlb).1 = nextProvider tlb := by
  unfold nextProviderTraced nextProvider nextProviderCount
  split
  · rfl
  · dsimp only
    rw [nextProviderLoopTraced_fst]

theorem RegisterTraced_fst (tlb : TestLoadBalancer) (providers : List ProviderRef) :
    (RegisterTraced tlb providers).1 = Register tlb providers := by
  unfold RegisterTraced Register
  split <;> rfl

theorem unregisterLoopTraced_fst (h : ProviderStore) (providerID : String)
    (tlb : TestLoadBalancer) (fuel : Nat) :
    ∀ i, (unregisterLoopTraced h providerID tlb fuel i).1
      = unregisterLoop h providerID tlb fuel i := by
  induction fuel with
  | zero => intro i; rfl
  | succ f ih =>
    intro i
    rw [unregisterLoopTraced, unregisterLoop]
    cases tlb.providers[i]? with
    | none => rfl
    | some w =>
      dsimp only
      split
      · rfl
      · exact ih _

theorem UnregisterTraced_fst (h : ProviderStore) (tlb : TestLoadBalancer) (providerID : String) :
    (UnregisterTraced h tlb providerID).1 = Unregister h tlb providerID := by
  unfold UnregisterTraced Unregister
  rw [unregisterLoopTraced_fst]

theorem healthCheckEntryTraced_events (h : ProviderStore) (threshold i : Nat)
    (p : ProviderWrapper) :
    ∃ rest, (healthCheckEntryTraced h threshold i p).2 = LockEvent.writeCounter i :: rest := by
  unfold healthCheckEntryTraced
  split
  · exact ⟨_, rfl⟩
  · dsimp only
    split <;> exact ⟨_, rfl⟩

theorem performHealthCheckTraced_unlocked (h : ProviderStore) (tlb : TestLoadBalancer)
    (hne : tlb.providers ≠ []) :
    ∃ rest, (performHealthCheckTraced h tlb).2
        = LockEvent.lock :: LockEvent.unlock :: LockEvent.writeCounter 0 :: rest ∧
      writesUnderExclusiveLock LockMode.free (performHealthCheckTraced h tlb).2 = false := by
  have hlen : 0 < tlb.providers.length := List.length_pos.mpr hne
  obtain ⟨p, hp⟩ : ∃ p, tlb.providers[0]? = some p :=
    ⟨tlb.providers[0], List.getElem?_eq_getElem hlen⟩
  obtain ⟨f, hf⟩ : ∃ f, tlb.providers.length = f + 1 :=
    ⟨tlb.providers.length - 1, by have := List.length_pos.mpr hne; omega⟩
  obtain ⟨r0, hr0⟩ := healthCheckEntryTraced_events h tlb.HealthCheckPassesThreshold 0 p
  have hloop : ∃ rest, (healthCheckLoopTraced h tlb.HealthCheckPassesThreshold
      tlb.providers.length 0 tlb.providers).2 = LockEvent.writeCounter 0 :: rest := by
    rw [hf, healthCheckLoopTraced, hp]
    dsimp only
    rw [hr0]
    exact ⟨_, rfl⟩
  obtain ⟨rest, hrest⟩ := hloop
  refine ⟨rest, ?_, ?_⟩
  · unfold performHealthCheckTraced
    rw [hrest]
    rfl
  · unfold performHealthCheckTraced
    rw [hrest]
    rfl

theorem RegisterTraced_locked (tlb : TestLoadBalancer) (providers : List ProviderRef) :
    writesUnderExclusiveLock LockMode.free (RegisterTraced tlb providers).2 = true := by
  unfold RegisterTraced
  split <;> rfl

theorem unregisterLoopTraced_events (h : ProviderStore) (providerID : String)
    (tlb : TestLoadBalancer) (fuel : Nat) :
    ∀ i, (unregisterLoopTraced h providerID tlb fuel i).2 = [] ∨
      (unregisterLoopTraced h providerID tlb fuel i).2
        = [LockEvent.writeProviders, LockEvent.writeFullness] := by
  induction fuel with
  | zero => intro i; exact Or.inl rfl
  | succ f ih =>
    intro i
    rw [unregisterLoopTraced]
    cases tlb.providers[i]? with
    | none => exact Or.inl rfl
    | some w =>
      dsimp only
      split
      · exact Or.inr rfl
      · exact ih _

theorem UnregisterTraced_locked (h : ProviderStore) (tlb : TestLoadBalancer)
    (providerID : String) :
    writesUnderExclusiveLock LockMode.free (UnregisterTraced h tlb providerID).2 = true := by
  unfold UnregisterTraced
  rcases unregisterLoopTraced_events h providerID tlb tlb.providers.length 0 with he | he
  · rw [he]; rfl
  · rw [he]; rfl

theorem nextProviderLoopTraced_events (fuel count : Nat) (tlb : TestLoadBalancer)
    (hle : tlb.fullness ≤ tlb.providers.length) :
    ∃ rest, (nextProviderLoopTraced (fuel + 1) count tlb).2 = LockEvent.writeCursor :: rest := by
  rw [nextProviderLoopTraced]
  by_cases hwrap : tlb.currentProvider ≥ tlb.fullness
  · simp only [if_pos hwrap]
    split
    · exact ⟨_, rfl⟩
    · split <;> exact ⟨_, rfl⟩
  · simp only [if_neg hwrap]
    rw [List.getElem?_eq_getElem (show tlb.currentProvider < tlb.providers.length by omega)]
    dsimp only
    split <;> exact ⟨_, rfl⟩

theorem nextProviderTraced_shared (tlb : TestLoadBalancer) (hpos : 0 < tlb.fullness)
    (hle : tlb.fullness ≤ tlb.providers.length) :
    ∃ rest, (nextProviderTraced tlb).2 = LockEvent.rlock :: LockEvent.writeCursor :: rest ∧
      writesUnderExclusiveLock LockMode.free (nextProviderTraced tlb).2 = false := by
  obtain ⟨f, hf⟩ : ∃ f, tlb.providers.length = f + 1 :=
    ⟨tlb.providers.length - 1, by omega⟩
  obtain ⟨rest, hrest⟩ := nextProviderLoopTraced_events f 0 tlb hle
  refine ⟨rest ++ [LockEvent.runlock], ?_, ?_⟩
  · unfold nextProviderTraced
    rw [if_neg (by omega), hf, hrest]
    rfl
  · unfold nextProviderTraced
    rw [if_neg (by omega), hf, hrest]
    rfl

/-- C15 at the failing input: in the sweep of two registered, disabled
providers the trace starts `Lock, Unlock` and only then writes the health
fields, so no write of the sweep is under the writer lock (the traced method
computes the same state as `performHealthCheck`); the scan of `nextProvider`
writes the cursor under the reader lock only; `Register` and `Unregister` do
write under the writer lock.  With the lock free between two iterations, a scan
on the state after the first iteration selects entry 1, which the finished
sweep demotes. -/
theorem C15_sweep_runs_unlocked :
    (performHealthCheckTraced (fun r => (demoStore r).Disable) twoDisabledState).1
      = performHealthCheck (fun r => (demoStore r).Disable) twoDisabledState ∧
    (performHealthCheckTraced (fun r => (demoStore r).Disable) twoDisabledState).2
      = [LockEvent.lock, LockEvent.unlock, LockEvent.writeCounter 0, LockEvent.writeHealthy 0,
          LockEvent.writeCounter 1, LockEvent.writeHealthy 1] ∧
    writesUnderExclusiveLock LockMode.free
      (performHealthCheckTraced (fun r => (demoStore r).Disable) twoDisabledState).2 = false ∧
    (nextProviderTraced twoDisabledState).2
      = [LockEvent.rlock, LockEvent.writeCursor, LockEvent.runlock] ∧
    writesUnderExclusiveLock LockMode.free (nextProviderTraced twoDisabledState).2 = false ∧
    writesUnderExclusiveLock LockMode.free (RegisterTraced twoDisabledState [2]).2 = true ∧
    writesUnderExclusiveLock LockMode.free
      (UnregisterTraced demoStore twoDisabledState "p-0").2 = true ∧
    (nextProvider (sweepAfter (fun r => (demoStore r).Disable) 1 twoDisabledState)).1
      = Outcome.ok 1 ∧
    (nextProvider (performHealthCheck (fun r => (demoStore r).Disable) twoDisabledState)).1
      = Outcome.err LBError.noHealthyProviders := by
  decide

end LB
